import Mathlib

/- Verification development for the hcmetanode repository.

   The files `metanode.py`, `fields.py`, `validators.py` and `utils.py` are
   shallowly embedded below.  The Maya attribute store (an external
   collaborator of the code) is modelled as an explicit scene state; the
   process-wide identity cache `MetaNode._instances`, the heap of live
   MetaNode objects and the log of `initialize()` invocations form the
   process state `Proc`.  Python exceptions are modelled with `Except`,
   Python `dict`s as association lists whose list order stands for the
   dict's iteration order, Python `float`s as rationals.  The source is
   Python-2-only (`basestring`, `itervalues`, `xrange`), and CPython 2.7
   dicts iterate in hash-table order: every conclusion proved below except
   the bootstrap-order one is insensitive to iteration order, and there the
   scenario lists are laid out in the concrete CPython 2.7 hash order
   (computed with the 64-bit Python 2 string hash; hash randomization is
   off by default in Python 2).  `json.dumps` / `json.loads` are modelled
   by an executable printer and recursive-descent parser for the JSON
   fragment the schema blob uses (decimal rendering of floats is not
   modelled; no schema blob produced by the code contains floats). -/

namespace HCM

/-- Python exception classes that the embedded code can raise. -/
inductive PyErr where
  | typeError
  | valueError
  | keyError
  | attributeError
  | exception
  | fuelOut
  deriving DecidableEq, Repr

/-- Accessibility enum from `fields.py` (`private = 1`, `public = 2`). -/
inductive Accessibility where
  | priv
  | pub
  deriving DecidableEq, Repr, Fintype

/-- Numeric `.value` of the Accessibility enum members. -/
def Accessibility.value : Accessibility → Int
  | .priv => 1
  | .pub => 2

/-- Validator kinds: one per `FieldValidator` subclass in `validators.py`. -/
inductive VKind where
  | intV
  | floatV
  | boolV
  | strV
  | matrixV
  | enumV
  | metanodeV
  | jsonV
  deriving DecidableEq, Repr, Fintype

/-- The `__name__` of each validator class. -/
def VKind.className : VKind → String
  | .intV => "IntValidator"
  | .floatV => "FloatValidator"
  | .boolV => "BoolValidator"
  | .strV => "StringValidator"
  | .matrixV => "MatrixValidator"
  | .enumV => "EnumValidator"
  | .metanodeV => "MetaNodeValidator"
  | .jsonV => "JsonValidator"

/-- The scan over `all_subclasses(FieldValidator)` in `add_default_fields`:
find the validator class whose `__name__` equals the stored string. -/
def validator_of_name (s : String) : Option VKind :=
  [VKind.intV, .floatV, .boolV, .strV, .matrixV, .enumV, .metanodeV, .jsonV].find?
    (fun vk => vk.className = s)

/-- Python values as they flow through fields, validators and the store. -/
inductive PyValue where
  | pnone
  | pint (z : Int)
  | pfloat (q : Rat)
  | pbool (b : Bool)
  | pstr (s : String)
  | pmatrix (xs : List Rat)
  | plist (xs : List PyValue)
  | pobj (fs : List (String × PyValue))
  | pref (oid : Nat)

instance : Inhabited PyValue := ⟨.pnone⟩

/-- Python truthiness. -/
def pyTruthy : PyValue → Bool
  | .pnone => false
  | .pint z => z != 0
  | .pfloat q => q != 0
  | .pbool b => b
  | .pstr s => s != ""
  | .pmatrix _ => true
  | .plist xs => !xs.isEmpty
  | .pobj fs => !fs.isEmpty
  | .pref _ => true

/-- Association-list lookup (Python `dict.get` / `d[k]`). -/
def aget {α : Type} : List (String × α) → String → Option α
  | [], _ => none
  | (k, v) :: rest, key => if k = key then some v else aget rest key

/-- Association-list insert-or-overwrite (Python `d[k] = v`; an existing key
keeps its position, a new key is appended).  The list order models the
dict's iteration order; appending is a canonical choice that no
order-sensitive conclusion relies on — the one iteration-order-sensitive
claim (bootstrap order) is settled on scenario lists laid out in the
concrete CPython 2.7 hash order the Python-2-only source iterates in. -/
def aset {α : Type} : List (String × α) → String → α → List (String × α)
  | [], key, v => [(key, v)]
  | (k, w) :: rest, key, v =>
      if k = key then (k, v) :: rest else (k, w) :: aset rest key v

/-- Association-list removal of a key (helper for `dict.pop`). -/
def aerase {α : Type} : List (String × α) → String → List (String × α)
  | [], _ => []
  | (k, w) :: rest, key => if k = key then rest else (k, w) :: aerase rest key

/-- Python `dict.pop(k)`: value plus remaining dict; `KeyError` when absent. -/
def apop {α : Type} (d : List (String × α)) (key : String) :
    Except PyErr (α × List (String × α)) :=
  match aget d key with
  | some v => .ok (v, aerase d key)
  | none => .error .keyError

/-- Modify the value stored under a key, if present. -/
def amod {α : Type} : List (String × α) → String → (α → α) → List (String × α)
  | [], _, _ => []
  | (k, w) :: rest, key, g =>
      if k = key then (k, g w) :: rest else (k, w) :: amod rest key g

/-- Key list of an association list. -/
def akeys {α : Type} (d : List (String × α)) : List String := d.map Prod.fst

section Json

/-- Opening brace character (written via its code point). -/
def lbChar : Char := Char.ofNat 123

/-- Closing brace character. -/
def rbChar : Char := Char.ofNat 125

/-- Double-quote character. -/
def quChar : Char := Char.ofNat 34

/-- Backslash character. -/
def bsChar : Char := Char.ofNat 92

/-- JSON string escaping as `json.dumps` performs it for quote and backslash
(the only escapes the schema blob can need). -/
def jescape (s : String) : String :=
  String.mk (s.data.foldr
    (fun c acc => if c = quChar ∨ c = bsChar then bsChar :: c :: acc else c :: acc) [])

/-- Quote and escape a string for JSON output. -/
def jquote (s : String) : String :=
  String.mk [quChar] ++ jescape s ++ String.mk [quChar]

/-- Work queue of the JSON serializer: one value, the tail of an array, or
the tail of an object. -/
inductive DMode where
  | one (v : PyValue)
  | many (xs : List PyValue)
  | fieldsD (fs : List (String × PyValue))

/-- Fuel-indexed core of `json.dumps` (fuel makes the recursion over the
nested value structural; `jdumps` supplies enough for any input). -/
def jd : Nat → DMode → Except PyErr String
  | 0, _ => .error .fuelOut
  | fuel + 1, .one v =>
      match v with
      | .pnone => .ok "null"
      | .pint z => .ok (toString z)
      | .pfloat q => .ok (toString q.num)
      | .pbool b => .ok (cond b "true" "false")
      | .pstr s => .ok (jquote s)
      | .pmatrix _ => .error .typeError
      | .pref _ => .error .typeError
      | .plist xs => do
          let s ← jd fuel (.many xs)
          .ok ("[" ++ s ++ "]")
      | .pobj fs => do
          let s ← jd fuel (.fieldsD fs)
          .ok (String.mk [lbChar] ++ s ++ String.mk [rbChar])
  | _ + 1, .many [] => .ok ""
  | fuel + 1, .many (x :: rest) => do
      let s ← jd fuel (.one x)
      let srest ← jd fuel (.many rest)
      .ok (s ++ (if rest.isEmpty then "" else ", ") ++ srest)
  | _ + 1, .fieldsD [] => .ok ""
  | fuel + 1, .fieldsD ((k, v) :: rest) => do
      let s ← jd fuel (.one v)
      let srest ← jd fuel (.fieldsD rest)
      .ok (jquote k ++ ": " ++ s ++ (if rest.isEmpty then "" else ", ") ++ srest)

/-- Model of `json.dumps` with the default separators of the Python 2 json
module.  Values with no JSON representation raise `TypeError` as `json.dumps`
does.  The fuel mirrors CPython's recursion limit (dumps of a structure
nested deeper than the limit raises there too).  Floats never occur in
schema blobs written by this code, so their decimal rendering is not
modelled faithfully. -/
def jdumps (v : PyValue) : Except PyErr String :=
  jd 1000 (.one v)

/-- Skip blanks (the only whitespace `json.dumps` output contains). -/
def skipWs : List Char → List Char
  | c :: cs => if c = ' ' then skipWs cs else c :: cs
  | [] => []

/-- Parse a JSON string body after the opening quote: contents plus rest. -/
def parseStrBody : List Char → Except PyErr (List Char × List Char)
  | [] => .error .valueError
  | c :: cs =>
      if c = quChar then .ok ([], cs)
      else if c = bsChar then
        match cs with
        | [] => .error .valueError
        | e :: cs' =>
            if e = quChar ∨ e = bsChar then do
              let (body, rest) ← parseStrBody cs'
              .ok (e :: body, rest)
            else .error .valueError
      else do
        let (body, rest) ← parseStrBody cs
        .ok (c :: body, rest)

/-- Split a leading run of decimal digits. -/
def takeDigits : List Char → (List Char × List Char)
  | [] => ([], [])
  | c :: cs =>
      if c.isDigit then
        let (ds, rest) := takeDigits cs
        (c :: ds, rest)
      else ([], c :: cs)

/-- Numeric value of a digit list. -/
def digitsToNat : List Char → Nat → Nat
  | [], acc => acc
  | c :: cs, acc => digitsToNat cs (acc * 10 + (c.toNat - 48))

/-- Work queue of the JSON parser: a value, the start of an object or array
body, or the continuation of one with the members accumulated so far. -/
inductive PMode where
  | val
  | objStart
  | arrStart
  | members (acc : List (String × PyValue))
  | elems (acc : List PyValue)

/-- Fuel-indexed recursive-descent parser for the JSON fragment
`json.loads` must read back (null, booleans, integers, strings, arrays,
objects).  All recursion is on the fuel; `jloads` supplies enough for any
input. -/
def jp : Nat → PMode → List Char → Except PyErr (PyValue × List Char)
  | 0, _, _ => .error .fuelOut
  | fuel + 1, .val, cs₀ =>
      match skipWs cs₀ with
      | [] => .error .valueError
      | c :: cs =>
          if c = quChar then do
            let (body, rest) ← parseStrBody cs
            .ok (.pstr (String.mk body), rest)
          else if c = lbChar then jp fuel .objStart cs
          else if c = '[' then jp fuel .arrStart cs
          else if c = '-' then
            match takeDigits cs with
            | ([], _) => .error .valueError
            | (ds, rest) => .ok (.pint (-(digitsToNat ds 0 : Int)), rest)
          else if c.isDigit then
            match takeDigits (c :: cs) with
            | (ds, rest) => .ok (.pint (digitsToNat ds 0 : Int), rest)
          else match c :: cs with
            | 't' :: 'r' :: 'u' :: 'e' :: rest => .ok (.pbool true, rest)
            | 'f' :: 'a' :: 'l' :: 's' :: 'e' :: rest => .ok (.pbool false, rest)
            | 'n' :: 'u' :: 'l' :: 'l' :: rest => .ok (.pnone, rest)
            | _ => .error .valueError
  | fuel + 1, .objStart, cs =>
      (match skipWs cs with
      | c :: rest =>
          if c = rbChar then .ok (.pobj [], rest)
          else jp fuel (.members []) (c :: rest)
      | [] => .error .valueError)
  | fuel + 1, .members acc, cs =>
      (match skipWs cs with
      | c :: rest =>
          if c = quChar then do
            let (key, afterKey) ← parseStrBody rest
            match skipWs afterKey with
            | ':' :: afterColon => do
                let (v, afterVal) ← jp fuel .val afterColon
                let acc' := acc ++ [(String.mk key, v)]
                match skipWs afterVal with
                | ',' :: more => jp fuel (.members acc') more
                | d :: more =>
                    if d = rbChar then .ok (.pobj acc', more)
                    else .error .valueError
                | [] => .error .valueError
            | _ => .error .valueError
          else .error .valueError
      | [] => .error .valueError)
  | fuel + 1, .arrStart, cs =>
      (match skipWs cs with
      | ']' :: rest => .ok (.plist [], rest)
      | cs' => jp fuel (.elems []) cs')
  | fuel + 1, .elems acc, cs => do
      let (v, afterVal) ← jp fuel .val cs
      let acc' := acc ++ [v]
      match skipWs afterVal with
      | ',' :: more => jp fuel (.elems acc') more
      | ']' :: more => .ok (.plist acc', more)
      | _ => .error .valueError

/-- Model of `json.loads`: parse a complete value, requiring the whole input
to be consumed; malformed input raises `ValueError` as in Python 2. -/
def jloads (s : String) : Except PyErr PyValue := do
  let (v, rest) ← jp (2 * s.length + 16) .val s.data
  match skipWs rest with
  | [] => .ok v
  | _ => .error .valueError

end Json

section Scene

/-- Maya attribute types as selected by each validator's
`create_attribute_kwargs` (`attributeType`/`dataType`). -/
inductive MAttrType where
  | long
  | double
  | boolT
  | enumT
  | stringT
  | matrixT
  deriving DecidableEq, Repr

/-- Value `cmds.getAttr` returns for a never-set attribute: numeric types
read as their zero value, data types (string, matrix) read as `None`. -/
def defaultRaw : MAttrType → Option PyValue
  | .long => some (.pint 0)
  | .double => some (.pfloat 0)
  | .boolT => some (.pbool false)
  | .enumT => some (.pint 0)
  | .stringT => none
  | .matrixT => none

/-- One Maya attribute slot: scalar value or multi elements, lock state and
whether an incoming connection drives it. -/
structure Slot where
  typ : MAttrType
  isMulti : Bool
  value : Option PyValue
  elems : List PyValue
  locked : Bool
  elemLocks : List Bool
  connected : Bool

/-- Fresh slot as `cmds.addAttr` creates it: unset, unlocked, unconnected. -/
def Slot.mkNew (t : MAttrType) (multi : Bool) : Slot :=
  ⟨t, multi, none, [], false, [], false⟩

/-- One Maya node: name, scene UUID and its dynamic attributes. -/
structure Entity where
  ename : String
  euuid : String
  attrs : List (String × Slot)

/-- The Maya scene: the external per-entity key/value store. -/
structure Scene where
  nodes : List Entity

/-- Find a node by name (`MSelectionList.add` / name-based cmds calls). -/
def Scene.find (sc : Scene) (n : String) : Option Entity :=
  sc.nodes.find? (fun e => e.ename = n)

/-- Find a node by UUID (`cmds.ls(uuid)`). -/
def Scene.findUuid (sc : Scene) (u : String) : Option Entity :=
  sc.nodes.find? (fun e => e.euuid = u)

/-- Update the node of the given name in place. -/
def Scene.upd (sc : Scene) (n : String) (g : Entity → Entity) : Scene :=
  ⟨sc.nodes.map (fun e => if e.ename = n then g e else e)⟩

/-- Slot lookup on a node. -/
def Entity.slot (e : Entity) (a : String) : Option Slot :=
  aget e.attrs a

/-- Store a slot on a node. -/
def Entity.putSlot (e : Entity) (a : String) (s : Slot) : Entity :=
  ⟨e.ename, e.euuid, aset e.attrs a s⟩

/-- Modify a slot on a node. -/
def Entity.modSlot (e : Entity) (a : String) (g : Slot → Slot) : Entity :=
  ⟨e.ename, e.euuid, amod e.attrs a g⟩

/-- Model of `cmds.objExists`. -/
def objExists (sc : Scene) (n : String) : Bool :=
  (sc.find n).isSome

/-- Model of `get_uuid(get_mobject(node))` from `utils.py`: resolving a
missing node name raises. -/
def getUuidOf (sc : Scene) (n : String) : Except PyErr String :=
  match sc.find n with
  | some e => .ok e.euuid
  | none => .error .valueError

/-- Model of `cmds.attributeQuery(attr, node=n, exists=True)`. -/
def attrExists (sc : Scene) (n a : String) : Bool :=
  match sc.find n with
  | some e => (e.slot a).isSome
  | none => false

/-- Model of `cmds.addAttr(n, longName=a, ...)`: creates the slot. -/
def addAttr (sc : Scene) (n a : String) (t : MAttrType) (multi : Bool) :
    Except PyErr Scene :=
  match sc.find n with
  | none => .error .valueError
  | some e =>
      match e.slot a with
      | some _ => .error .valueError
      | none => .ok (sc.upd n (fun e' => e'.putSlot a (Slot.mkNew t multi)))

/-- Model of scalar `cmds.getAttr`: `None` only for unset data-typed slots. -/
def getAttrV (sc : Scene) (n a : String) : Except PyErr (Option PyValue) :=
  match sc.find n with
  | none => .error .valueError
  | some e =>
      match e.slot a with
      | none => .error .valueError
      | some s =>
          if s.isMulti then .error .valueError
          else .ok (s.value.orElse (fun _ => defaultRaw s.typ))

/-- Model of scalar `cmds.setAttr(path, value, ...)`: fails on a locked slot
and on values Maya cannot store (None). -/
def setAttrV (sc : Scene) (n a : String) (v : PyValue) : Except PyErr Scene :=
  match sc.find n with
  | none => .error .valueError
  | some e =>
      match e.slot a with
      | none => .error .valueError
      | some s =>
          if s.locked then .error .valueError
          else match v with
          | .pnone => .error .valueError
          | _ => .ok (sc.upd n (fun e' => e'.modSlot a (fun s' => { s' with value := some v })))

/-- Model of `cmds.setAttr(path, lock=b)` on the slot itself. -/
def setLockA (sc : Scene) (n a : String) (b : Bool) : Except PyErr Scene :=
  match sc.find n with
  | none => .error .valueError
  | some e =>
      match e.slot a with
      | none => .error .valueError
      | some _ => .ok (sc.upd n (fun e' => e'.modSlot a (fun s' => { s' with locked := b })))

/-- Model of `cmds.listConnections(path, source=True, destination=False)`
converted to truthiness: does an incoming connection drive the slot? -/
def connectedSrc (sc : Scene) (n a : String) : Except PyErr Bool :=
  match sc.find n with
  | none => .error .valueError
  | some e =>
      match e.slot a with
      | none => .error .valueError
      | some s => .ok s.connected

/-- Number of existing multi elements (`MPlug.numElements`). -/
def numElems (sc : Scene) (n a : String) : Except PyErr Nat :=
  match sc.find n with
  | none => .error .valueError
  | some e =>
      match e.slot a with
      | none => .error .valueError
      | some s => .ok s.elems.length

/-- Read one multi element (`cmds.getAttr` on an element plug). -/
def getElemV (sc : Scene) (n a : String) (i : Nat) : Except PyErr PyValue :=
  match sc.find n with
  | none => .error .valueError
  | some e =>
      match e.slot a with
      | none => .error .valueError
      | some s =>
          match s.elems.get? i with
          | some v => .ok v
          | none => .error .valueError

/-- Write one multi element (`cmds.setAttr` on an element plug): appends at
the next logical index or overwrites an existing one; fails on locked
elements and unstorable values. -/
def setElemV (sc : Scene) (n a : String) (i : Nat) (v : PyValue) :
    Except PyErr Scene :=
  match sc.find n with
  | none => .error .valueError
  | some e =>
      match e.slot a with
      | none => .error .valueError
      | some s =>
          if s.elemLocks.getD i false then .error .valueError
          else match v with
          | .pnone => .error .valueError
          | _ =>
              if i < s.elems.length then
                .ok (sc.upd n (fun e' => e'.modSlot a
                  (fun s' => { s' with elems := s'.elems.set i v })))
              else if i = s.elems.length then
                .ok (sc.upd n (fun e' => e'.modSlot a (fun s' =>
                  { s' with elems := s'.elems ++ [v], elemLocks := s'.elemLocks ++ [false] })))
              else .error .valueError

/-- Model of `cmds.removeMultiInstance(path, allChildren=True, b=True)`:
deletes every element of the multi attribute. -/
def remMulti (sc : Scene) (n a : String) : Except PyErr Scene :=
  match sc.find n with
  | none => .error .valueError
  | some e =>
      match e.slot a with
      | none => .error .valueError
      | some _ => .ok (sc.upd n (fun e' => e'.modSlot a
          (fun s' => { s' with elems := [], elemLocks := [] })))

/-- Lock or unlock every existing element plug of a multi attribute. -/
def setAllElemLocks (sc : Scene) (n a : String) (b : Bool) : Except PyErr Scene :=
  match sc.find n with
  | none => .error .valueError
  | some e =>
      match e.slot a with
      | none => .error .valueError
      | some _ => .ok (sc.upd n (fun e' => e'.modSlot a
          (fun s' => { s' with elemLocks := s'.elemLocks.map (fun _ => b) })))

/-- Model of `cmds.createNode`: appends a fresh node with a fresh UUID. -/
def createNode (sc : Scene) : Scene × String :=
  let nm := "node" ++ toString (sc.nodes.length + 1)
  let u := "uuid" ++ toString (sc.nodes.length + 1)
  (⟨sc.nodes ++ [⟨nm, u, []⟩]⟩, nm)

end Scene

section Process

/-- One Field instance (`fields.py`): validator class, behavioural variant
(accessibility x multiplicity), attribute name, in-memory `_value` and the
extra `**kwargs` the field was declared with. -/
structure FieldObj where
  validator : VKind
  acc : Accessibility
  multi : Bool
  fname : String
  value : PyValue
  extra : List (String × PyValue)

/-- One live MetaNode object: handle to its node (as the stable UUID the
`MObject` resolves to), its concrete class name and its `fields` dict. -/
structure MetaObj where
  nodeUuid : String
  clsName : String
  mfields : List (String × FieldObj)

/-- Process state: the Maya scene, the heap of MetaNode objects (a `pref`
and an identity-cache entry denote a heap index, so reference equality is
index equality), the identity cache `MetaNode._instances`, and a trace of
`initialize()` invocations (the base implementation is an empty hook; the
trace records its calls, keyed by node UUID). -/
structure Proc where
  scene : Scene
  objs : List MetaObj
  instances : List (String × Nat)
  initLog : List String

/-- Heap lookup. -/
def Proc.getObj (st : Proc) (o : Nat) : Option MetaObj :=
  st.objs.get? o

/-- Replace a list element at an index (no-op out of range). -/
def lset {α : Type} : List α → Nat → α → List α
  | [], _, _ => []
  | _ :: rest, 0, a => a :: rest
  | x :: rest, n + 1, a => x :: lset rest n a

/-- Heap update at an existing index. -/
def Proc.modObj (st : Proc) (o : Nat) (g : MetaObj → MetaObj) : Proc :=
  match st.objs.get? o with
  | some m => { st with objs := lset st.objs o (g m) }
  | none => st

/-- Replace the scene component. -/
def Proc.withScene (st : Proc) (sc : Scene) : Proc :=
  { st with scene := sc }

/-- Field lookup on an object (`self.fields.get(name)`). -/
def getField (st : Proc) (o : Nat) (fn : String) : Option FieldObj :=
  match st.getObj o with
  | none => none
  | some m => aget m.mfields fn

/-- Update one field object in an object's field dict. -/
def Proc.modField (st : Proc) (o : Nat) (fn : String) (g : FieldObj → FieldObj) : Proc :=
  st.modObj o (fun m => { m with mfields := amod m.mfields fn g })

/-- Model of `self.metanode.path()` for the object's node (DAG parenting and
renaming are outside the claims, so the path is the node name). -/
def pathOf (st : Proc) (o : Nat) : Except PyErr String :=
  match st.getObj o with
  | none => .error .attributeError
  | some m =>
      match st.scene.findUuid m.nodeUuid with
      | some e => .ok e.ename
      | none => .error .valueError

end Process

section Validators

/-- Maya attribute type each validator's `create_attribute_kwargs` selects. -/
def attrTypeOf : VKind → MAttrType
  | .intV => .long
  | .floatV => .double
  | .boolV => .boolT
  | .strV => .stringT
  | .matrixV => .matrixT
  | .enumV => .enumT
  | .metanodeV => .stringT
  | .jsonV => .stringT

/-- Each validator's `get_default_value()`.  `MMatrix()` is the identity
matrix; `EnumValidator` and `MetaNodeValidator` inherit `None`. -/
def get_default_value : VKind → PyValue
  | .intV => .pint 0
  | .floatV => .pfloat 0
  | .boolV => .pbool false
  | .strV => .pstr ""
  | .matrixV => .pmatrix [1, 0, 0, 0, 0, 1, 0, 0, 0, 0, 1, 0, 0, 0, 0, 1]
  | .enumV => .pnone
  | .metanodeV => .pnone
  | .jsonV => .pobj []

/-- Integer-literal parse used by `int(str)` / `float(str)` (an optional
minus sign followed by digits). -/
def pyParseInt (s : String) : Option Int :=
  match s.data with
  | [] => none
  | '-' :: rest =>
      (match takeDigits rest with
      | (ds, []) => if ds.isEmpty then none else some (-(digitsToNat ds 0 : Int))
      | _ => none)
  | cs =>
      (match takeDigits cs with
      | (ds, []) => if ds.isEmpty then none else some ((digitsToNat ds 0 : Int))
      | _ => none)

/-- Python `int(value)`: floats truncate toward zero, strings must parse as
an integer literal (`ValueError` otherwise), other shapes raise `TypeError`. -/
def pyIntCast : PyValue → Except PyErr PyValue
  | .pint z => .ok (.pint z)
  | .pfloat q => .ok (.pint (q.num / (q.den : Int)))
  | .pbool b => .ok (.pint (cond b 1 0))
  | .pstr s =>
      match pyParseInt s with
      | some z => .ok (.pint z)
      | none => .error .valueError
  | _ => .error .typeError

/-- Python `float(value)` (decimal string literals are not modelled; no
claim exercises them). -/
def pyFloatCast : PyValue → Except PyErr PyValue
  | .pint z => .ok (.pfloat z)
  | .pfloat q => .ok (.pfloat q)
  | .pbool b => .ok (.pfloat (cond b 1 0))
  | .pstr s =>
      match pyParseInt s with
      | some z => .ok (.pfloat z)
      | none => .error .valueError
  | _ => .error .typeError

/-- Python `str(value)`, total; only the string case is exercised on-domain. -/
def pyStrCast : PyValue → String
  | .pnone => "None"
  | .pint z => toString z
  | .pfloat q => toString q
  | .pbool b => cond b "True" "False"
  | .pstr s => s
  | .pmatrix _ => "maya matrix"
  | .plist _ => "list"
  | .pobj _ => "dict"
  | .pref _ => "metanode"

/-- Model of `value.uuid()` on a field value holding a MetaNode reference
(`MetaNodeValidator.to_attribute`); anything else has no `uuid` attribute. -/
def objUuid (st : Proc) : PyValue → Except PyErr String
  | .pref o =>
      match st.getObj o with
      | some m => .ok m.nodeUuid
      | none => .error .attributeError
  | _ => .error .attributeError

/-- The `to_attribute` staticmethod of each validator class
(`validators.py`).  `MatrixValidator` and `EnumValidator` inherit the
identity default; `MetaNodeValidator` stores the referenced node's UUID or
the empty string; `JsonValidator` dumps (substituting `{}` for None). -/
def to_attribute (st : Proc) (vk : VKind) (v : PyValue) : Except PyErr PyValue :=
  match vk with
  | .intV => pyIntCast v
  | .floatV => pyFloatCast v
  | .boolV => .ok (.pbool (pyTruthy v))
  | .strV => .ok (.pstr (pyStrCast v))
  | .matrixV => .ok v
  | .enumV => .ok v
  | .metanodeV =>
      if pyTruthy v then do
        let u ← objUuid st v
        .ok (.pstr u)
      else .ok (.pstr "")
  | .jsonV => do
      let s ← jdumps (match v with | .pnone => .pobj [] | x => x)
      .ok (.pstr s)

/-- Convert a raw list read from a matrix plug into MMatrix entries. -/
def ratsOf : List PyValue → Except PyErr (List Rat)
  | [] => .ok []
  | .pint z :: rest => do
      let qs ← ratsOf rest
      .ok ((z : Rat) :: qs)
  | .pfloat q :: rest => do
      let qs ← ratsOf rest
      .ok (q :: qs)
  | _ => .error .typeError

/-- Shape of the recursive entry point `MetaNode.__new__`/`__init__` as the
validators see it: wrapping a node name yields a heap index and the evolved
process state. -/
abbrev WrapF := Proc → String → Except PyErr (Nat × Proc)

/-- The `from_attribute` staticmethod of each validator class.
`MetaNodeValidator.from_attribute` resolves the stored UUID with `cmds.ls`
and re-enters the `MetaNode` constructor, hence the `w` callback. -/
def from_attributeW (w : WrapF) (st : Proc) (vk : VKind) (raw : PyValue) :
    Except PyErr (PyValue × Proc) :=
  match vk, raw with
  | .matrixV, .pmatrix xs => .ok (.pmatrix xs, st)
  | .matrixV, .plist xs => do
      let qs ← ratsOf xs
      .ok (.pmatrix qs, st)
  | .matrixV, _ => .error .typeError
  | .jsonV, .pnone => .ok (.pobj [], st)
  | .jsonV, .pstr s => do
      let v ← jloads s
      .ok (v, st)
  | .jsonV, _ => .error .typeError
  | .metanodeV, v =>
      if pyTruthy v then
        match v with
        | .pstr u =>
            match st.scene.findUuid u with
            | none => .ok (.pnone, st)
            | some e => do
                let (o, st') ← w st e.ename
                .ok (.pref o, st')
        | _ => .ok (.pnone, st)
      else .ok (.pnone, st)
  | _, v => .ok (v, st)

end Validators

section FieldOps

/-- Read loop of `MultiField.read`: `numElements` is sampled once, the
element plugs are fetched one by one and decoded. -/
def read_elems (w : WrapF) (vk : VKind) (n a : String) :
    Nat → Nat → Proc → List PyValue → Except PyErr (List PyValue × Proc)
  | _, 0, st, acc => .ok (acc, st)
  | i, k + 1, st, acc => do
      let raw ← getElemV st.scene n a i
      let (dv, st') ← from_attributeW w st vk raw
      read_elems w vk n a (i + 1) k st' (acc ++ [dv])

/-- Core of `Field.read` / `MultiField.read` on node `n`, attribute `a`:
the decoded replacement for `_value`, or `none` when the single-value read
found `None` and left `_value` alone. -/
def read_value (w : WrapF) (st : Proc) (n a : String) (vk : VKind) (multi : Bool) :
    Except PyErr (Option PyValue × Proc) :=
  if multi then do
    let cnt ← numElems st.scene n a
    let (vals, st') ← read_elems w vk n a 0 cnt st []
    .ok (some (.plist vals), st')
  else do
    let rawOpt ← getAttrV st.scene n a
    match rawOpt with
    | none => .ok (none, st)
    | some raw => do
        let (dv, st') ← from_attributeW w st vk raw
        .ok (some dv, st')

/-- `Field.read` as a method call on a field registered in `self.fields`:
the new `_value` lands in the field-dict entry of that name.  (If a
re-entrant `wrap` replaced the entry meanwhile, Python would update the
detached old object instead; no claim reaches that corner.) -/
def field_read (w : WrapF) (st : Proc) (o : Nat) (fn : String) : Except PyErr Proc :=
  match getField st o fn with
  | none => .error .attributeError
  | some f => do
      let p ← pathOf st o
      let (upd, st') ← read_value w st p fn f.validator f.multi
      match upd with
      | none => .ok st'
      | some dv => .ok (st'.modField o fn (fun g => { g with value := dv }))

/-- Write loop of `MultiField.write`: encode and set each element in order;
an encode failure propagates (no try/except in `MultiField.write`). -/
def write_elems (st : Proc) (vk : VKind) (n a : String) :
    Nat → List PyValue → Scene → Except PyErr Scene
  | _, [], sc => .ok sc
  | i, v :: rest, sc => do
      let ev ← to_attribute st vk v
      let sc' ← setElemV sc n a i ev
      write_elems st vk n a (i + 1) rest sc'

/-- `Field.write` / `PublicField.write` / `MultiField.write`.

Single fields: encode first; an encode failure is logged and swallowed
(state unchanged).  Otherwise unlock (private only — `PublicField` overrides
`_protect_attribute` to never lock), skip the store mutation when an
incoming connection drives the slot, else set, then relock (private only).

Multi fields: unlock every element, clear the whole multi attribute, then
encode and write the values one by one, and relock the (new) elements. -/
def field_write (st : Proc) (o : Nat) (fn : String) : Except PyErr Proc :=
  match getField st o fn with
  | none => .error .attributeError
  | some f =>
      if f.multi then do
        let p ← pathOf st o
        let sc ← setAllElemLocks st.scene p fn false
        let sc ← setLockA sc p fn false
        let sc ← setAllElemLocks sc p fn false
        let sc ← remMulti sc p fn
        let vs ← (match f.value with
          | .plist xs => .ok xs
          | _ => .error .typeError)
        let sc ← write_elems st f.validator p fn 0 vs sc
        let sc ← setAllElemLocks sc p fn true
        .ok (st.withScene sc)
      else
        match to_attribute st f.validator f.value with
        | .error _ => .ok st
        | .ok ev => do
            let p ← pathOf st o
            let sc ← (match f.acc with
              | .pub => .ok st.scene
              | .priv => setLockA st.scene p fn false)
            let conn ← connectedSrc sc p fn
            if conn then do
              let sc ← (match f.acc with
                | .pub => .ok sc
                | .priv => setLockA sc p fn true)
              .ok (st.withScene sc)
            else do
              let sc ← setAttrV sc p fn ev
              let sc ← (match f.acc with
                | .pub => .ok sc
                | .priv => setLockA sc p fn true)
              .ok (st.withScene sc)

/-- `get()` dispatch: private single and multi fields return the in-memory
`_value`; `PublicField.get` runs `self.read()` and returns its result —
which is `None`, because `Field.read` has no return statement on either
path. -/
def field_get (w : WrapF) (st : Proc) (o : Nat) (fn : String) :
    Except PyErr (PyValue × Proc) :=
  match getField st o fn with
  | none => .error .attributeError
  | some f =>
      if f.multi then .ok (f.value, st)
      else
        match f.acc with
        | .priv => .ok (f.value, st)
        | .pub => do
            let st' ← field_read w st o fn
            .ok (.pnone, st')

/-- `set(v)` dispatch: private single and multi fields only update the
in-memory `_value`; `PublicField.set` updates `_value` and immediately
calls `write()`. -/
def field_set (st : Proc) (o : Nat) (fn : String) (v : PyValue) : Except PyErr Proc :=
  match getField st o fn with
  | none => .error .attributeError
  | some f =>
      if f.multi then .ok (st.modField o fn (fun g => { g with value := v }))
      else
        match f.acc with
        | .priv => .ok (st.modField o fn (fun g => { g with value := v }))
        | .pub =>
            let st' := st.modField o fn (fun g => { g with value := v })
            field_write st' o fn

end FieldOps

section MetaNodeOps

/-- `MetaNode.add_field`: `get_field_class` rejects public multi fields;
otherwise build the field (create the Maya attribute if absent, then run the
constructor's `read()`), register it under `name` in `self.fields`, and
merge its descriptor dict into the in-memory schema blob
`self.metanode_fields.get()[name] = field_data`. -/
def add_field (w : WrapF) (st : Proc) (o : Nat) (vk : VKind) (nm : String)
    (acc : Accessibility) (multi : Bool) (extra : List (String × PyValue)) :
    Except PyErr Proc :=
  match multi, acc with
  | true, .pub => .error .valueError
  | _, _ => do
      let v₀ := match aget extra "default_value" with
        | some .pnone | none => if multi then .plist [] else get_default_value vk
        | some x => x
      let p ← pathOf st o
      let st ← (if attrExists st.scene p nm then pure st
        else do
          let sc ← addAttr st.scene p nm (attrTypeOf vk) multi
          pure (st.withScene sc))
      let (upd, st) ← read_value w st p nm vk multi
      let v₁ := upd.getD v₀
      let fobj : FieldObj := ⟨vk, acc, multi, nm, v₁, extra⟩
      let st := st.modObj o (fun m => { m with mfields := aset m.mfields nm fobj })
      let desc := extra.foldl (fun d kv => aset d kv.1 kv.2)
        [("validator", .pstr vk.className), ("multi", .pbool multi),
         ("accessibility", .pint acc.value)]
      match getField st o "metanode_fields" with
      | none => .error .attributeError
      | some mf =>
          match mf.multi, mf.acc with
          | false, .pub => .error .typeError
          | _, _ =>
              match mf.value with
              | .pobj fs =>
                  .ok (st.modField o "metanode_fields"
                    (fun g => { g with value := .pobj (aset fs nm (.pobj desc)) }))
              | _ => .error .typeError

/-- One iteration of the re-declaration loop of `add_default_fields`: pop
`validator`, `accessibility` and `multi` from the persisted descriptor (a
malformed entry raises as the dict operations would), then scan the
validator registry by class name; an unknown name is silently skipped. -/
def bootstrap_entry (w : WrapF) (o : Nat) (st : Proc) :
    String × PyValue → Except PyErr Proc
  | (fn, fd) =>
      match fd with
      | .pobj d₀ => do
          let (vnv, d₁) ← apop d₀ "validator"
          let (accv, d₂) ← apop d₁ "accessibility"
          let acc ← (match accv with
            | .pint 1 => .ok Accessibility.priv
            | .pint 2 => .ok Accessibility.pub
            | _ => .error .valueError)
          let (mv, d₃) ← apop d₂ "multi"
          let vn := match vnv with
            | .pstr s => s
            | _ => ""
          match validator_of_name vn with
          | some vk => add_field w st o vk fn acc (pyTruthy mv) d₃
          | none => .ok st
      | _ => .error .attributeError

/-- The re-declaration loop of `add_default_fields` over the snapshot of
the persisted descriptors, in order. -/
def bootstrap_loop (w : WrapF) (o : Nat) :
    Proc → List (String × PyValue) → Except PyErr Proc
  | st, [] => .ok st
  | st, entry :: rest => do
      let st' ← bootstrap_entry w o st entry
      bootstrap_loop w o st' rest

/-- `MetaNode.add_default_fields`: declare the schema-blob field, snapshot
`self.metanode_fields.get().items()`, re-declare every described field,
then declare `metanode_type` (and set it to the class name) and
`is_initialized`. -/
def add_default_fields (w : WrapF) (st : Proc) (o : Nat) : Except PyErr Proc := do
  let st ← add_field w st o .jsonV "metanode_fields" .priv false []
  let (bv, st) ← field_get w st o "metanode_fields"
  let entries ← (match bv with
    | .pobj fs => .ok fs
    | _ => .error .attributeError)
  let st ← bootstrap_loop w o st entries
  let st ← add_field w st o .strV "metanode_type" .priv false []
  let cls ← (match st.getObj o with
    | some m => .ok m.clsName
    | none => .error .attributeError)
  let st ← field_set st o "metanode_type" (.pstr cls)
  add_field w st o .boolV "is_initialized" .priv false []

/-- `MetaNode.read_fields` (iterates the values of `self.fields`). -/
def read_list (w : WrapF) (o : Nat) : Proc → List String → Except PyErr Proc
  | st, [] => .ok st
  | st, fn :: rest => do
      let st' ← field_read w st o fn
      read_list w o st' rest

/-- `MetaNode.read_fields`: `field.read()` on every declared field. -/
def read_fields (w : WrapF) (st : Proc) (o : Nat) : Except PyErr Proc :=
  match st.getObj o with
  | none => .error .attributeError
  | some m => read_list w o st (akeys m.mfields)

/-- Helper for `MetaNode.write_fields`. -/
def write_list (o : Nat) : Proc → List String → Except PyErr Proc
  | st, [] => .ok st
  | st, fn :: rest => do
      let st' ← field_write st o fn
      write_list o st' rest

/-- `MetaNode.write_fields`: `field.write()` on every declared field. -/
def write_fields (st : Proc) (o : Nat) : Except PyErr Proc :=
  match st.getObj o with
  | none => .error .attributeError
  | some m => write_list o st (akeys m.mfields)

/-- `MetaNode.__init__` on object `o` for node name `node`: rebind
`self.mobject`, reset `self.fields`, bootstrap the default fields, then —
only when this UUID is not yet cached — read all fields and register the
instance, and finally run `initialize()` guarded by the `is_initialized`
field value. -/
def init_meta (w : WrapF) (st : Proc) (o : Nat) (node : String) :
    Except PyErr (Nat × Proc) := do
  let u ← getUuidOf st.scene node
  let st := st.modObj o (fun m => { m with nodeUuid := u, mfields := [] })
  let st ← add_default_fields w st o
  let st ← (match aget st.instances u with
    | some _ => pure st
    | none => do
        let st ← read_fields w st o
        pure { st with instances := aset st.instances u o })
  let (iv, st) ← field_get w st o "is_initialized"
  if pyTruthy iv then .ok (o, st)
  else do
    let st : Proc := { st with initLog := st.initLog ++ [u] }
    let st ← field_set st o "is_initialized" (.pbool true)
    .ok (o, st)

/-- `MetaNode.__new__` followed by the `__init__` Python runs on the object
`__new__` returned: reject missing nodes, return the cached instance on an
identity-cache hit (but still re-run `__init__` on it), otherwise resolve
the stored `metanode_type` tag against the class hierarchy — this process
registers no subclasses, so only the tag `MetaNode` (or a node without a
stored tag) resolves; an unset or foreign tag raises — and allocate a fresh
object. -/
def wrap_step (w : WrapF) (st : Proc) (node : String) : Except PyErr (Nat × Proc) :=
  if objExists st.scene node then do
    let u ← getUuidOf st.scene node
    match aget st.instances u with
    | some o => init_meta w st o node
    | none => do
        let stored ← (if attrExists st.scene node "metanode_type"
          then getAttrV st.scene node "metanode_type"
          else pure (some (.pstr "MetaNode")))
        match stored with
        | some (.pstr s) =>
            if s = "MetaNode" then do
              let o := st.objs.length
              let st := { st with objs := st.objs ++ [⟨u, "MetaNode", []⟩] }
              init_meta w st o node
            else .error .exception
        | _ => .error .exception
  else .error .valueError

/-- `MetaNode(node)`, i.e. `wrap`: the recursive knot is closed by fuel;
each nested constructor re-entry (through `MetaNodeValidator`) descends one
fuel level, so any concrete execution succeeds with enough fuel while the
cyclic-reference divergence of the Python code surfaces as `fuelOut`. -/
def wrap : Nat → Proc → String → Except PyErr (Nat × Proc)
  | 0, _, _ => .error .fuelOut
  | f + 1, st, node => wrap_step (wrap f) st node

/-- The empty process over an empty scene. -/
def emptyProc : Proc := ⟨⟨[]⟩, [], [], []⟩

/-- Simulating a fresh process while keeping the backing scene: clear the
identity cache (`MetaNode._instances`), as the spec's schema
self-description scenario prescribes. -/
def clear_instances (st : Proc) : Proc :=
  { st with instances := [] }

end MetaNodeOps

section GetattrModel

/-- Instance attributes `__init__` assigns, found by normal lookup before
`__getattr__` is consulted. -/
def instance_attr_names : List String := ["mobject", "fields"]

/-- Attributes of the `MetaNode` class itself (methods and the cache). -/
def class_attr_names : List String :=
  ["new", "from_uuid", "initialize", "add_default_fields", "add_field",
   "read_fields", "write_fields", "serialize", "name", "path", "uuid",
   "_instances"]

/-- Result of Python attribute lookup on a MetaNode instance. -/
inductive AttrLookup where
  | builtinAttr
  | fieldAttr (f : FieldObj)
  | noneVal

/-- Model of `getattr(instance, name)`: normal lookup finds instance and
class attributes; only when that fails does Python call
`MetaNode.__getattr__`, which returns `self.fields.get(name)` when that is
not `None` and otherwise returns `None` (it never raises, so the duck-typed
access cannot surface `AttributeError`). -/
def py_getattr (m : MetaObj) (n : String) : Except PyErr AttrLookup :=
  if n ∈ instance_attr_names ∨ n ∈ class_attr_names then .ok .builtinAttr
  else
    match aget m.mfields n with
    | some f => .ok (.fieldAttr f)
    | none => .ok .noneVal

end GetattrModel

section Scenarios

/-- The three reserved field names of every MetaNode. -/
def reservedNames : List String :=
  ["metanode_fields", "metanode_type", "is_initialized"]

/-- One fresh transform node in an empty scene. -/
def baseScene : Scene × String := createNode emptyProc.scene

/-- Process state holding that scene, before any wrap. -/
def baseProc : Proc := emptyProc.withScene baseScene.1

/-- Name of the fresh node. -/
def baseNode : String := baseScene.2

/-- Representative domain value for each validator kind (the spec's
round-trip property speaks of representative values). -/
def representative_value : VKind → PyValue
  | .intV => .pint 7
  | .floatV => .pfloat 1
  | .boolV => .pbool true
  | .strV => .pstr "abc"
  | .matrixV => .pmatrix [1, 0, 0, 0, 0, 1, 0, 0, 0, 0, 1, 0, 1, 2, 3, 1]
  | .enumV => .pint 1
  | .metanodeV => .pnone
  | .jsonV => .pobj []

/-- Observation of one slot's persisted state: stored scalar value, stored
multi elements, and whether an incoming connection drives it. -/
def slotData (sc : Scene) (n a : String) : Option (Option PyValue × List PyValue × Bool) :=
  match sc.find n with
  | some e => (e.slot a).map (fun s => (s.value, s.elems, s.connected))
  | none => none

/-- External creation of an incoming connection onto a slot (the store-side
effect of `cmds.connectAttr` performed by another actor). -/
def connectIncoming (sc : Scene) (n a : String) : Scene :=
  sc.upd n (fun e => e.modSlot a (fun s => { s with connected := true }))

/-- C1 counterexample pipeline: wrap a fresh node, declare a private integer
field `count`, simulate a fresh process without any flush, and wrap again. -/
def c1_no_flush_pipeline : Except PyErr (Nat × Proc) := do
  let (o, st1) ← wrap 10 baseProc baseNode
  let st2 ← add_field (wrap 9) st1 o .intV "count" .priv false []
  let st3 := clear_instances st2
  wrap 10 st3 baseNode

/-- C1 amended pipeline: as above but `write_fields()` flushes before the
identity cache is cleared; the field also receives a representative value. -/
def c1_reload_pipeline (vk : VKind) (acc : Accessibility) (multi : Bool) :
    Except PyErr (Nat × Proc) := do
  let (o, st1) ← wrap 10 baseProc baseNode
  let st2 ← add_field (wrap 9) st1 o vk "count" acc multi []
  let v := if multi then PyValue.plist [representative_value vk]
           else representative_value vk
  let st3 ← field_set st2 o "count" v
  let st4 ← write_fields st3 o
  let st5 := clear_instances st4
  wrap 10 st5 baseNode

/-- Does the re-wrapped node expose a `count` field carrying the same
validator kind, multiplicity and accessibility? -/
def c1_reload_check (vk : VKind) (acc : Accessibility) (multi : Bool) : Bool :=
  match c1_reload_pipeline vk acc multi with
  | .ok (o2, st6) =>
      match getField st6 o2 "count" with
      | some fobj => fobj.validator == vk && fobj.multi == multi && fobj.acc == acc
      | none => false
  | .error _ => false

/-- C2 counterexample pipeline: wrap, flush, then an external actor unlocks
and corrupts the persisted schema blob; wrap the same (existing, cached)
node again. -/
def c2_corrupt_pipeline : Except PyErr (Nat × Proc) := do
  let (o, st1) ← wrap 10 baseProc baseNode
  let st2 ← write_fields st1 o
  let sc ← setLockA st2.scene baseNode "metanode_fields" false
  let sc2 ← setAttrV sc baseNode "metanode_fields" (.pstr "not json")
  wrap 10 (st2.withScene sc2) baseNode

/-- C2 witness state: wrap (yielding heap index 0), declare a custom
private integer field, flush, then a benign external mutation of that
field's stored value. -/
def c2_mut_state : Proc :=
  match (do
    let (o1, st1) ← wrap 10 baseProc baseNode
    let st2 ← add_field (wrap 9) st1 o1 .intV "cnt" .priv false []
    let st3 ← write_fields st2 o1
    let sc ← setLockA st3.scene baseNode "cnt" false
    let sc2 ← setAttrV sc baseNode "cnt" (.pint 42)
    .ok (st3.withScene sc2)) with
  | .ok st => st
  | .error _ => emptyProc

/-- Result of the second wrap after the benign mutation. -/
def c2_second : Nat × Proc :=
  match wrap 10 c2_mut_state baseNode with
  | .ok p => p
  | .error _ => (99, emptyProc)

/-- C3 counterexample pipeline: declare a private multi integer field, flush
`[1, 2]`, then set a non-numeric value and call `write()` again. -/
def c3_multi_pipeline : Except PyErr Proc := do
  let (o, st1) ← wrap 10 baseProc baseNode
  let st2 ← add_field (wrap 9) st1 o .intV "indices" .priv true []
  let st3 ← field_set st2 o "indices" (.plist [.pint 1, .pint 2])
  let st4 ← field_write st3 o "indices"
  let st5 ← field_set st4 o "indices" (.plist [.pstr "abc"])
  field_write st5 o "indices"

/-- C3 witness state: a private single integer field holding the
non-encodable value `"abc"`. -/
def c3_single_state : Proc :=
  match (do
    let (o, st1) ← wrap 10 baseProc baseNode
    let st2 ← add_field (wrap 9) st1 o .intV "cnt" .priv false []
    field_set st2 o "cnt" (.pstr "abc")) with
  | .ok st => st
  | .error _ => emptyProc

/-- C4 pipeline: declare a public integer field, `set(5)` (write-through),
then `get()`; report the value `get()` returned and the stored value. -/
def c4_public_pipeline : Except PyErr (PyValue × Option PyValue) := do
  let (o, st1) ← wrap 10 baseProc baseNode
  let st2 ← add_field (wrap 9) st1 o .intV "speed" .pub false []
  let st3 ← field_set st2 o "speed" (.pint 5)
  let (gv, st4) ← field_get (wrap 9) st3 o "speed"
  let sv ← getAttrV st4.scene baseNode "speed"
  .ok (gv, sv)

/-- C5 pipeline: wrap the same node twice in one process with no flush in
between; report both heap indices and the `initialize()` trace. -/
def c5_double_wrap_pipeline : Except PyErr (Nat × Nat × List String) := do
  let (o1, st1) ← wrap 10 baseProc baseNode
  let (o2, st2) ← wrap 10 st1 baseNode
  .ok (o1, o2, st2.initLog)

/-- C6 witness state: a private single integer field freshly set to 10. -/
def c6_state : Proc :=
  match (do
    let (o, st1) ← wrap 10 baseProc baseNode
    add_field (wrap 9) st1 o .intV "cnt" .priv false []) with
  | .ok st => st
  | .error _ => emptyProc

/-- C7 witness state: a private single integer field whose slot was flushed
to 3 and then externally connected; the in-memory value is 99. -/
def c7_single_state : Proc :=
  match (do
    let (o, st1) ← wrap 10 baseProc baseNode
    let st2 ← add_field (wrap 9) st1 o .intV "cnt" .priv false []
    let st3 ← field_set st2 o "cnt" (.pint 3)
    let st4 ← field_write st3 o "cnt"
    let st5 := st4.withScene (connectIncoming st4.scene baseNode "cnt")
    field_set st5 o "cnt" (.pint 99)) with
  | .ok st => st
  | .error _ => emptyProc

/-- C7 counterexample pipeline: a private multi field whose slot was flushed
to `[1]` and then externally connected; `write()` of the in-memory `[99]`
still clears and rewrites the store.  Reports the element stored before and
after that write. -/
def c7_multi_pipeline : Except PyErr (PyValue × PyValue) := do
  let (o, st1) ← wrap 10 baseProc baseNode
  let st2 ← add_field (wrap 9) st1 o .intV "indices" .priv true []
  let st3 ← field_set st2 o "indices" (.plist [.pint 1])
  let st4 ← field_write st3 o "indices"
  let st5 := st4.withScene (connectIncoming st4.scene baseNode "indices")
  let before ← getElemV st5.scene baseNode "indices" 0
  let st6 ← field_set st5 o "indices" (.plist [.pint 99])
  let st7 ← field_write st6 o "indices"
  let after ← getElemV st7.scene baseNode "indices" 0
  .ok (before, after)

/-- Descriptor a flushed schema blob holds for a single private field. -/
def c8_entry (vn : String) : PyValue :=
  .pobj [("validator", .pstr vn), ("multi", .pbool false), ("accessibility", .pint 1)]

/-- The three reserved descriptors, listed in the order the first bootstrap
merged them into the in-memory blob dict.  This is the blob's insertion
order, not the order the Python 2 runtime iterates the persisted dict in —
see `c8_hash_blob` below for the real iteration order. -/
def c8_pre : List (String × PyValue) :=
  [("metanode_fields", c8_entry "JsonValidator"),
   ("metanode_type", c8_entry "StringValidator"),
   ("is_initialized", c8_entry "BoolValidator")]

/-- The four blob entries of a flushed entity carrying one custom `count`
field, listed in merge (insertion) order. -/
def c8_blob : List (String × PyValue) :=
  c8_pre ++ [("count", c8_entry "IntValidator")]

/-- Scene of an entity whose reserved attributes and custom `count` field
were flushed by `write_fields`. -/
def c8_scene : Scene :=
  match (do
    let (o, st1) ← wrap 10 baseProc baseNode
    let st2 ← add_field (wrap 9) st1 o .intV "count" .priv false []
    let st3 ← write_fields st2 o
    .ok st3.scene) with
  | .ok sc => sc
  | .error _ => emptyProc.scene

/-- A MetaNode object mid-bootstrap: it has just declared the schema-blob
field (holding the parsed persisted blob) and is about to enter the
re-declaration loop. -/
def c8_obj0 : MetaObj :=
  ⟨"uuid1", "MetaNode",
    [("metanode_fields",
      ⟨.jsonV, .priv, false, "metanode_fields", .pobj c8_blob, []⟩)]⟩

/-- Process state at that moment of the bootstrap. -/
def c8_state : Proc := ⟨c8_scene, [c8_obj0], [], []⟩

/-- Result of running the re-declaration loop over the full blob. -/
def c8_fin : Proc :=
  match bootstrap_loop (wrap 6) 0 c8_state c8_blob with
  | .ok st => st
  | .error _ => emptyProc

/-- Fresh object about to run `add_default_fields` for the first time. -/
def c8_init_state : Proc := { baseProc with objs := [⟨"uuid1", "MetaNode", []⟩] }

/-- Result of that first `add_default_fields` bootstrap. -/
def c8_adf_fin : Proc :=
  match add_default_fields (wrap 6) c8_init_state 0 with
  | .ok st => st
  | .error _ => emptyProc

/-- The same four blob entries in the order a CPython 2.7 dict actually
iterates them.  The source runs only under Python 2 (`basestring` in
`MetaNode.__new__`, `itervalues` in `read_fields` / `write_fields`), whose
dicts iterate in hash-table order: with the 64-bit Python 2 string hash
(whose value on "a" is 12416037344), the four keys land in the size-8
table at slots count ↦ 0, is_initialized ↦ 1, metanode_fields ↦ 6,
metanode_type ↦ 7 — all distinct, so every insertion sequence (both the
dict `json.loads` builds and the writer dict `json.dumps` iterated) yields
this same iteration order. -/
def c8_hash_blob : List (String × PyValue) :=
  [("count", c8_entry "IntValidator"),
   ("is_initialized", c8_entry "BoolValidator"),
   ("metanode_fields", c8_entry "JsonValidator"),
   ("metanode_type", c8_entry "StringValidator")]

/-- Mid-bootstrap object as under the real Python 2 runtime: the schema-blob
field was just declared — it is the only field declared so far — and its
parsed persisted value iterates in hash order. -/
def c8_hash_obj0 : MetaObj :=
  ⟨"uuid1", "MetaNode",
    [("metanode_fields",
      ⟨.jsonV, .priv, false, "metanode_fields", .pobj c8_hash_blob, []⟩)]⟩

/-- Process state at that moment of the Python 2 bootstrap. -/
def c8_hash_state : Proc := ⟨c8_scene, [c8_hash_obj0], [], []⟩

/-- Result of the re-declaration loop over the hash-ordered blob. -/
def c8_hash_fin : Proc :=
  match bootstrap_loop (wrap 6) 0 c8_hash_state c8_hash_blob with
  | .ok st => st
  | .error _ => emptyProc

/-- C9 witness state: the process after wrapping the fresh node. -/
def c9_state : Proc :=
  match wrap 10 baseProc baseNode with
  | .ok (_, st) => st
  | .error _ => emptyProc

/-- The single live MetaNode object of `c9_state`. -/
def c9_obj : MetaObj :=
  match c9_state.getObj 0 with
  | some m => m
  | none => ⟨"", "", []⟩

/-- The backing entity of `c9_state`. -/
def c9_entity : Entity :=
  match c9_state.scene.find baseNode with
  | some e => e
  | none => ⟨"", "", []⟩

/-- Result of decoding the stored UUID back through `MetaNodeValidator`. -/
def c9_dec : PyValue × Proc :=
  match from_attributeW (wrap 10) c9_state .metanodeV (.pstr c9_obj.nodeUuid) with
  | .ok p => p
  | .error _ => (.pnone, emptyProc)

/-- Across every successful interpreter step, an object's declared field
names only grow — with one exception: a re-entrant re-bootstrap of a cached
object resets its field dict but, when it completes, has re-declared all
three reserved fields. -/
def KeysMono (st st' : Proc) : Prop :=
  ∀ o m, st.getObj o = some m → ∃ m', st'.getObj o = some m' ∧
    (akeys m.mfields ⊆ akeys m'.mfields ∨ reservedNames ⊆ akeys m'.mfields)

/-- A wrap callback all of whose successful runs are `KeysMono`. -/
def WrapKeysMono (w : WrapF) : Prop :=
  ∀ st node r st', w st node = .ok (r, st') → KeysMono st st'

/-- A persisted schema-blob entry whose processing in the re-declaration
loop is guaranteed to call `add_field` (and hence put the entry's name in
the field map): its descriptor names a known validator class. -/
def entryAddsB (d : PyValue) : Bool :=
  match d with
  | .pobj l =>
      match aget l "validator" with
      | some (.pstr s) => (validator_of_name s).isSome
      | _ => false
  | _ => false

/-- Representative JSON-compatible value for the opaque-structured-data
round trip. -/
def json_representative : PyValue :=
  .pobj [("a", .pint 1), ("b", .plist [.pbool true, .pnone, .pstr "x"])]

/-- C10 witness object: one declared field named `my_field`. -/
def c10_obj : MetaObj :=
  ⟨"uuid1", "MetaNode",
    [("my_field", ⟨.intV, .priv, false, "my_field", .pint 0, []⟩)]⟩

end Scenarios

section HelperLemmas

theorem bind_ok_iff {α β : Type} {x : Except PyErr α} {g : α → Except PyErr β} {b : β} :
    x >>= g = .ok b ↔ ∃ a, x = .ok a ∧ g a = .ok b := by
  cases x <;> simp [Bind.bind, Except.bind]

theorem aget_aset_self {α : Type} (l : List (String × α)) (k : String) (v : α) :
    aget (aset l k v) k = some v := by
  induction l with
  | nil => simp [aset, aget]
  | cons p rest ih =>
      obtain ⟨k', w⟩ := p
      by_cases h : k' = k <;> simp [aset, aget, h, ih]

theorem akeys_nil {α : Type} : akeys ([] : List (String × α)) = [] := rfl

theorem akeys_cons {α : Type} (k : String) (v : α) (rest : List (String × α)) :
    akeys ((k, v) :: rest) = k :: akeys rest := rfl

theorem aget_aset_ne {α : Type} (l : List (String × α)) (k k' : String) (v : α)
    (h : k' ≠ k) : aget (aset l k v) k' = aget l k' := by
  induction l with
  | nil => simp only [aset, aget, if_neg (fun hc => h (Eq.symm hc))]
  | cons p rest ih =>
      obtain ⟨k₀, w⟩ := p
      by_cases h₀ : k₀ = k
      · subst h₀
        simp only [aset, if_pos rfl, aget, if_neg (fun hc => h (Eq.symm hc))]
      · simp only [aset, if_neg h₀, aget, ih]

theorem aget_amod_self {α : Type} (l : List (String × α)) (k : String) (g : α → α) :
    aget (amod l k g) k = (aget l k).map g := by
  induction l with
  | nil => simp [amod, aget]
  | cons p rest ih =>
      obtain ⟨k₀, w⟩ := p
      by_cases h : k₀ = k <;> simp [amod, aget, h, ih]

theorem aget_amod_ne {α : Type} (l : List (String × α)) (k k' : String) (g : α → α)
    (h : k' ≠ k) : aget (amod l k g) k' = aget l k' := by
  induction l with
  | nil => simp [amod]
  | cons p rest ih =>
      obtain ⟨k₀, w⟩ := p
      by_cases h₀ : k₀ = k
      · subst h₀
        simp only [amod, if_pos rfl, aget, if_neg (fun hc => h (Eq.symm hc))]
      · simp only [amod, if_neg h₀, aget, ih]

theorem akeys_amod {α : Type} (l : List (String × α)) (k : String) (g : α → α) :
    akeys (amod l k g) = akeys l := by
  induction l with
  | nil => rfl
  | cons p rest ih =>
      obtain ⟨k₀, w⟩ := p
      by_cases h : k₀ = k
      · simp only [amod, if_pos h, akeys_cons]
      · simp only [amod, if_neg h, akeys_cons, ih]

theorem akeys_aset_subset {α : Type} (l : List (String × α)) (k : String) (v : α) :
    akeys l ⊆ akeys (aset l k v) := by
  induction l with
  | nil => simp [akeys_nil]
  | cons p rest ih =>
      obtain ⟨k₀, w⟩ := p
      by_cases h : k₀ = k
      · subst h
        simp only [aset, if_pos rfl, akeys_cons]
        exact List.Subset.refl _
      · simp only [aset, if_neg h, akeys_cons]
        exact List.cons_subset_cons _ ih

theorem mem_akeys_aset {α : Type} (l : List (String × α)) (k : String) (v : α) :
    k ∈ akeys (aset l k v) := by
  induction l with
  | nil => simp [aset, akeys_cons, akeys_nil]
  | cons p rest ih =>
      obtain ⟨k₀, w⟩ := p
      by_cases h : k₀ = k
      · subst h
        simp only [aset, if_pos rfl, akeys_cons]
        exact List.mem_cons_self _ _
      · simp only [aset, if_neg h, akeys_cons]
        exact List.mem_cons_of_mem _ ih

theorem mem_akeys_of_aget {α : Type} (l : List (String × α)) (k : String) (v : α)
    (h : aget l k = some v) : k ∈ akeys l := by
  induction l with
  | nil => simp [aget] at h
  | cons p rest ih =>
      obtain ⟨k₀, w⟩ := p
      by_cases h₀ : k₀ = k
      · subst h₀
        exact List.mem_cons_self _ _
      · simp only [aget, if_neg h₀] at h
        exact List.mem_cons_of_mem _ (ih h)

theorem get?_lset_self {α : Type} (l : List α) (i : Nat) (a : α) (h : i < l.length) :
    (lset l i a).get? i = some a := by
  induction l generalizing i with
  | nil => simp at h
  | cons x rest ih =>
      cases i with
      | zero => rfl
      | succ n =>
          show (lset rest n a).get? n = some a
          exact ih n (by simpa using h)

theorem get?_lset_ne {α : Type} (l : List α) (i j : Nat) (a : α) (h : j ≠ i) :
    (lset l i a).get? j = l.get? j := by
  induction l generalizing i j with
  | nil => rfl
  | cons x rest ih =>
      cases i with
      | zero =>
          cases j with
          | zero => exact absurd rfl h
          | succ m => rfl
      | succ n =>
          cases j with
          | zero => rfl
          | succ m =>
              show (lset rest n a).get? m = rest.get? m
              exact ih n m (fun hc => h (by rw [hc]))

theorem length_lset {α : Type} (l : List α) (i : Nat) (a : α) :
    (lset l i a).length = l.length := by
  induction l generalizing i with
  | nil => rfl
  | cons x rest ih =>
      cases i with
      | zero => rfl
      | succ n => simpa [lset] using ih n

theorem getObj_modObj_self (st : Proc) (o : Nat) (g : MetaObj → MetaObj) :
    (st.modObj o g).getObj o = (st.getObj o).map g := by
  unfold Proc.modObj Proc.getObj
  cases h : st.objs.get? o with
  | none => simp only [h, Option.map_none']
  | some m =>
      have hlen : o < st.objs.length := by
        by_contra hn
        rw [List.get?_eq_none.mpr (Nat.le_of_not_lt hn)] at h
        exact absurd h (by simp)
      simp only [h, get?_lset_self _ _ _ hlen, Option.map_some']

theorem getObj_modObj_ne (st : Proc) (o o' : Nat) (g : MetaObj → MetaObj)
    (h : o' ≠ o) : (st.modObj o g).getObj o' = st.getObj o' := by
  unfold Proc.modObj Proc.getObj
  cases hg : st.objs.get? o with
  | none => simp
  | some m => simp only [get?_lset_ne _ _ _ _ h]

theorem modObj_scene (st : Proc) (o : Nat) (g : MetaObj → MetaObj) :
    (st.modObj o g).scene = st.scene := by
  unfold Proc.modObj
  cases st.objs.get? o <;> simp

theorem modObj_instances (st : Proc) (o : Nat) (g : MetaObj → MetaObj) :
    (st.modObj o g).instances = st.instances := by
  unfold Proc.modObj
  cases st.objs.get? o <;> simp

theorem modObj_initLog (st : Proc) (o : Nat) (g : MetaObj → MetaObj) :
    (st.modObj o g).initLog = st.initLog := by
  unfold Proc.modObj
  cases st.objs.get? o <;> simp

theorem getField_modField_self (st : Proc) (o : Nat) (fn : String)
    (g : FieldObj → FieldObj) :
    getField (st.modField o fn g) o fn = (getField st o fn).map g := by
  unfold getField Proc.modField
  rw [getObj_modObj_self]
  cases st.getObj o with
  | none => simp
  | some m => simp [aget_amod_self]

theorem getField_modField_ne (st : Proc) (o : Nat) (fn fn' : String)
    (g : FieldObj → FieldObj) (h : fn' ≠ fn) :
    getField (st.modField o fn g) o fn' = getField st o fn' := by
  unfold getField Proc.modField
  rw [getObj_modObj_self]
  cases st.getObj o with
  | none => simp
  | some m => simp [aget_amod_ne _ _ _ _ h]

theorem modField_scene (st : Proc) (o : Nat) (fn : String) (g : FieldObj → FieldObj) :
    (st.modField o fn g).scene = st.scene := modObj_scene _ _ _

theorem modField_instances (st : Proc) (o : Nat) (fn : String) (g : FieldObj → FieldObj) :
    (st.modField o fn g).instances = st.instances := modObj_instances _ _ _

theorem modField_initLog (st : Proc) (o : Nat) (fn : String) (g : FieldObj → FieldObj) :
    (st.modField o fn g).initLog = st.initLog := modObj_initLog _ _ _

end HelperLemmas

section StructuralLemmas

/-- `MetaNode.__init__` hands back exactly the object it was invoked on. -/
theorem init_meta_ret (w : WrapF) (st : Proc) (o : Nat) (node : String)
    (r : Nat) (st' : Proc) (h : init_meta w st o node = .ok (r, st')) : r = o := by
  unfold init_meta at h
  rcases bind_ok_iff.mp h with ⟨u, hu, h⟩
  rcases bind_ok_iff.mp h with ⟨st₁, h₁, h⟩
  rcases bind_ok_iff.mp h with ⟨st₂, h₂, h⟩
  rcases bind_ok_iff.mp h with ⟨⟨iv, st₃⟩, h₃, h⟩
  simp only at h
  split at h
  · cases h
    rfl
  · rcases bind_ok_iff.mp h with ⟨st₄, h₄, h⟩
    cases h
    rfl

/-- A wrap of a node whose UUID is already in the identity cache hands back
precisely the cached heap index, whatever else the store holds. -/
theorem wrap_ret_of_cached (f : Nat) (st : Proc) (node u : String)
    (c o : Nat) (st' : Proc)
    (hu : getUuidOf st.scene node = .ok u)
    (hc : aget st.instances u = some c)
    (hw : wrap f st node = .ok (o, st')) :
    o = c := by
  cases f with
  | zero => exact absurd hw (by simp [wrap])
  | succ f =>
      unfold wrap wrap_step at hw
      split at hw
      · rcases bind_ok_iff.mp hw with ⟨u', hu', hw⟩
        rw [hu] at hu'
        cases hu'
        rw [hc] at hw
        exact init_meta_ret _ _ _ _ _ _ hw
      · exact absurd hw (by simp)

theorem ok_bind {α β : Type} (a : α) (g : α → Except PyErr β) :
    (Except.ok a >>= g) = g a := rfl

theorem find?_map_ename (l : List Entity) (m : String) (h : Entity → Entity)
    (hh : ∀ e, (h e).ename = e.ename) :
    (l.map h).find? (fun e => e.ename = m) = (l.find? (fun e => e.ename = m)).map h := by
  induction l with
  | nil => rfl
  | cons e rest ih =>
      simp only [List.map_cons, List.find?_cons]
      by_cases hc : e.ename = m
      · simp [hh e, hc]
      · simp [hh e, hc, ih]

/-- `Scene.upd` commutes with `Scene.find` when the update keeps names. -/
theorem scene_find_upd (sc : Scene) (n m : String) (g : Entity → Entity)
    (hg : ∀ e, (g e).ename = e.ename) :
    (sc.upd n g).find m =
      (sc.find m).map (fun e => if e.ename = n then g e else e) := by
  unfold Scene.upd Scene.find
  exact find?_map_ename sc.nodes m _ (fun e => by
    by_cases he : e.ename = n <;> simp [he, hg e])

/-- Locking or unlocking a slot succeeds whenever the slot exists. -/
theorem setLockA_ok (sc : Scene) (n a : String) (b : Bool)
    (d : Option PyValue × List PyValue × Bool) (h : slotData sc n a = some d) :
    ∃ sc', setLockA sc n a b = .ok sc' := by
  unfold slotData at h
  unfold setLockA
  cases hf : sc.find n with
  | none => simp [hf] at h
  | some e =>
      simp only [hf] at h ⊢
      cases hs : e.slot a with
      | none => simp [hs] at h
      | some s =>
          simp only [hs]
          exact ⟨_, rfl⟩

/-- Lock toggling never changes any slot's stored value, elements or
connection state. -/
theorem slotData_setLockA (sc : Scene) (n a : String) (b : Bool) (sc' : Scene)
    (h : setLockA sc n a b = .ok sc') (m x : String) :
    slotData sc' m x = slotData sc m x := by
  unfold setLockA at h
  cases hf : sc.find n with
  | none => simp [hf] at h
  | some e =>
      simp only [hf] at h
      cases hs : e.slot a with
      | none => simp [hs] at h
      | some s =>
          simp only [hs] at h
          cases h
          unfold slotData
          have hup := scene_find_upd sc n m
            (fun e' => e'.modSlot a (fun s' => { s' with locked := b }))
            (fun e' => rfl)
          rw [hup]
          cases hfm : sc.find m with
          | none => rfl
          | some em =>
              simp only [Option.map_some']
              by_cases he : em.ename = n
              · simp only [if_pos he]
                show (Entity.slot _ x).map _ = _
                unfold Entity.slot Entity.modSlot
                by_cases hx : x = a
                · subst hx
                  rw [aget_amod_self]
                  cases aget em.attrs x <;> rfl
                · rw [aget_amod_ne _ _ _ _ hx]
              · simp only [if_neg he]

/-- Reading the connection state of an existing slot. -/
theorem connectedSrc_of_slotData (sc : Scene) (n a : String)
    (vv : Option PyValue) (el : List PyValue) (c : Bool)
    (h : slotData sc n a = some (vv, el, c)) :
    connectedSrc sc n a = .ok c := by
  unfold slotData at h
  unfold connectedSrc
  cases hf : sc.find n with
  | none => simp [hf] at h
  | some e =>
      simp only [hf] at h ⊢
      cases hs : e.slot a with
      | none => simp [hs] at h
      | some s =>
          simp only [hs, Option.map_some', Option.some_inj] at h
          simp only [hs]
          have hcc : s.connected = c := congrArg (fun t => t.2.2) h
          rw [hcc]

end StructuralLemmas

section KeysMonoLemmas

theorem keysMono_refl (st : Proc) : KeysMono st st :=
  fun _ m hm => ⟨m, hm, Or.inl (List.Subset.refl _)⟩

theorem keysMono_trans {s1 s2 s3 : Proc} (h12 : KeysMono s1 s2)
    (h23 : KeysMono s2 s3) : KeysMono s1 s3 := by
  intro o m hm
  obtain ⟨m2, hm2, hd2⟩ := h12 o m hm
  obtain ⟨m3, hm3, hd3⟩ := h23 o m2 hm2
  refine ⟨m3, hm3, ?_⟩
  rcases hd2 with hd2 | hd2
  · rcases hd3 with hd3 | hd3
    · exact Or.inl (hd2.trans hd3)
    · exact Or.inr hd3
  · rcases hd3 with hd3 | hd3
    · exact Or.inr (hd2.trans hd3)
    · exact Or.inr hd3

theorem keysMono_of_objs_eq {s1 s2 : Proc} (h : s2.objs = s1.objs) :
    KeysMono s1 s2 := by
  intro o m hm
  refine ⟨m, ?_, Or.inl (List.Subset.refl _)⟩
  show s2.objs.get? o = some m
  rw [h]
  exact hm

theorem keysMono_withScene (st : Proc) (sc : Scene) :
    KeysMono st (st.withScene sc) :=
  keysMono_of_objs_eq rfl

theorem keysMono_instances (st : Proc) (l : List (String × Nat)) :
    KeysMono st { st with instances := l } :=
  keysMono_of_objs_eq rfl

theorem keysMono_initLog (st : Proc) (l : List String) :
    KeysMono st { st with initLog := l } :=
  keysMono_of_objs_eq rfl

theorem keysMono_modField (st : Proc) (o : Nat) (fn : String)
    (g : FieldObj → FieldObj) : KeysMono st (st.modField o fn g) := by
  intro o' m hm
  by_cases ho : o' = o
  · subst ho
    refine ⟨{ m with mfields := amod m.mfields fn g }, ?_, Or.inl ?_⟩
    · unfold Proc.modField
      rw [getObj_modObj_self, hm]
      rfl
    · show akeys m.mfields ⊆ akeys (amod m.mfields fn g)
      rw [akeys_amod]
      exact List.Subset.refl _
  · refine ⟨m, ?_, Or.inl (List.Subset.refl _)⟩
    unfold Proc.modField
    rw [getObj_modObj_ne _ _ _ _ ho]
    exact hm

theorem keysMono_insert (st : Proc) (o : Nat) (fn : String) (fobj : FieldObj) :
    KeysMono st (st.modObj o (fun m => { m with mfields := aset m.mfields fn fobj })) := by
  intro o' m hm
  by_cases ho : o' = o
  · subst ho
    refine ⟨{ m with mfields := aset m.mfields fn fobj }, ?_, Or.inl ?_⟩
    · rw [getObj_modObj_self, hm]
      rfl
    · exact akeys_aset_subset _ _ _
  · refine ⟨m, ?_, Or.inl (List.Subset.refl _)⟩
    rw [getObj_modObj_ne _ _ _ _ ho]
    exact hm

theorem keysMono_append (st : Proc) (ms : List MetaObj) :
    KeysMono st { st with objs := st.objs ++ ms } := by
  intro o m hm
  have hm' : st.objs.get? o = some m := hm
  refine ⟨m, ?_, Or.inl (List.Subset.refl _)⟩
  show (st.objs ++ ms).get? o = some m
  rw [List.get?_append]
  · exact hm'
  · by_contra hn
    rw [List.get?_eq_none.mpr (Nat.le_of_not_lt hn)] at hm'
    exact absurd hm' (by simp)

theorem from_attributeW_keysMono (w : WrapF) (hw : WrapKeysMono w)
    (st : Proc) (vk : VKind) (raw v : PyValue) (st' : Proc)
    (h : from_attributeW w st vk raw = .ok (v, st')) : KeysMono st st' := by
  unfold from_attributeW at h
  split at h
  · cases h; exact keysMono_refl _
  · rcases bind_ok_iff.mp h with ⟨qs, hq, h⟩
    cases h; exact keysMono_refl _
  · exact absurd h (by simp)
  · cases h; exact keysMono_refl _
  · rcases bind_ok_iff.mp h with ⟨jv, hj, h⟩
    cases h; exact keysMono_refl _
  · exact absurd h (by simp)
  · split at h
    · split at h
      · split at h
        · cases h; exact keysMono_refl _
        · rcases bind_ok_iff.mp h with ⟨⟨oo, st₂⟩, hww, hfin⟩
          simp only at hfin
          cases hfin
          exact hw _ _ _ _ hww
      · cases h; exact keysMono_refl _
    · cases h; exact keysMono_refl _
  · cases h; exact keysMono_refl _

theorem read_elems_keysMono (w : WrapF) (hw : WrapKeysMono w)
    (vk : VKind) (n a : String) :
    ∀ (k i : Nat) (st : Proc) (acc vals : List PyValue) (st' : Proc),
      read_elems w vk n a i k st acc = .ok (vals, st') → KeysMono st st' := by
  intro k
  induction k with
  | zero =>
      intro i st acc vals st' h
      unfold read_elems at h
      cases h
      exact keysMono_refl _
  | succ k ih =>
      intro i st acc vals st' h
      unfold read_elems at h
      rcases bind_ok_iff.mp h with ⟨raw, hr, h⟩
      rcases bind_ok_iff.mp h with ⟨⟨dv, st₂⟩, hd, h⟩
      simp only at h
      exact keysMono_trans (from_attributeW_keysMono w hw _ _ _ _ _ hd) (ih _ _ _ _ _ h)

theorem read_value_keysMono (w : WrapF) (hw : WrapKeysMono w)
    (st : Proc) (n a : String) (vk : VKind) (multi : Bool)
    (upd : Option PyValue) (st' : Proc)
    (h : read_value w st n a vk multi = .ok (upd, st')) : KeysMono st st' := by
  unfold read_value at h
  split at h
  · rcases bind_ok_iff.mp h with ⟨cnt, hc, h⟩
    rcases bind_ok_iff.mp h with ⟨⟨vals, st₂⟩, hv, h⟩
    simp only at h
    cases h
    exact read_elems_keysMono w hw vk n a _ _ _ _ _ _ hv
  · rcases bind_ok_iff.mp h with ⟨rawOpt, hr, h⟩
    split at h
    · cases h; exact keysMono_refl _
    · rcases bind_ok_iff.mp h with ⟨⟨dv, st₂⟩, hd, h⟩
      simp only at h
      cases h
      exact from_attributeW_keysMono w hw _ _ _ _ _ hd

theorem field_read_keysMono (w : WrapF) (hw : WrapKeysMono w)
    (st : Proc) (o : Nat) (fn : String) (st' : Proc)
    (h : field_read w st o fn = .ok st') : KeysMono st st' := by
  unfold field_read at h
  split at h
  · exact absurd h (by simp)
  · rcases bind_ok_iff.mp h with ⟨p, hp, h⟩
    rcases bind_ok_iff.mp h with ⟨⟨upd, st₂⟩, hv, h⟩
    simp only at h
    have h₂ := read_value_keysMono w hw _ _ _ _ _ _ _ hv
    split at h
    · cases h; exact h₂
    · cases h
      exact keysMono_trans h₂ (keysMono_modField _ _ _ _)

theorem getField_some_obj (st : Proc) (o : Nat) (fn : String) (f : FieldObj)
    (h : getField st o fn = some f) :
    ∃ m, st.getObj o = some m ∧ aget m.mfields fn = some f := by
  unfold getField at h
  split at h
  · exact absurd h (by simp)
  · next m hm => exact ⟨m, hm, h⟩

theorem akeys_getObj_modField (st : Proc) (o : Nat) (fn : String)
    (g : FieldObj → FieldObj) (m : MetaObj) (hm : st.getObj o = some m) :
    ∃ m', (st.modField o fn g).getObj o = some m' ∧
      akeys m'.mfields = akeys m.mfields := by
  unfold Proc.modField
  rw [getObj_modObj_self, hm]
  exact ⟨_, rfl, akeys_amod _ _ _⟩

theorem field_write_keysMono (st : Proc) (o : Nat) (fn : String) (st' : Proc)
    (h : field_write st o fn = .ok st') : KeysMono st st' := by
  unfold field_write at h
  split at h
  · exact absurd h (by simp)
  · split at h
    · rcases bind_ok_iff.mp h with ⟨p, hp, h⟩
      rcases bind_ok_iff.mp h with ⟨sc1, h1, h⟩
      rcases bind_ok_iff.mp h with ⟨sc2, h2, h⟩
      rcases bind_ok_iff.mp h with ⟨sc3, h3, h⟩
      rcases bind_ok_iff.mp h with ⟨sc4, h4, h⟩
      rcases bind_ok_iff.mp h with ⟨vs, hvs, h⟩
      rcases bind_ok_iff.mp h with ⟨sc5, h5, h⟩
      rcases bind_ok_iff.mp h with ⟨sc6, h6, h⟩
      cases h
      exact keysMono_withScene _ _
    · split at h
      · cases h
        exact keysMono_refl _
      · rcases bind_ok_iff.mp h with ⟨p, hp, h⟩
        rcases bind_ok_iff.mp h with ⟨sc1, h1, h⟩
        rcases bind_ok_iff.mp h with ⟨conn, hc, h⟩
        split at h
        · rcases bind_ok_iff.mp h with ⟨sc2, h2, h⟩
          cases h
          exact keysMono_withScene _ _
        · rcases bind_ok_iff.mp h with ⟨sc2, h2, h⟩
          rcases bind_ok_iff.mp h with ⟨sc3, h3, h⟩
          cases h
          exact keysMono_withScene _ _

theorem field_get_keysMono (w : WrapF) (hw : WrapKeysMono w)
    (st : Proc) (o : Nat) (fn : String) (v : PyValue) (st' : Proc)
    (h : field_get w st o fn = .ok (v, st')) : KeysMono st st' := by
  unfold field_get at h
  split at h
  · exact absurd h (by simp)
  · split at h
    · cases h; exact keysMono_refl _
    · split at h
      · cases h; exact keysMono_refl _
      · rcases bind_ok_iff.mp h with ⟨st₂, hr, h⟩
        cases h
        exact field_read_keysMono w hw _ _ _ _ hr

theorem field_set_keysMono (st : Proc) (o : Nat) (fn : String) (v : PyValue)
    (st' : Proc) (h : field_set st o fn v = .ok st') : KeysMono st st' := by
  unfold field_set at h
  split at h
  · exact absurd h (by simp)
  · split at h
    · cases h; exact keysMono_modField _ _ _ _
    · split at h
      · cases h; exact keysMono_modField _ _ _ _
      · exact keysMono_trans (keysMono_modField _ _ _ _)
          (field_write_keysMono _ _ _ _ h)

theorem add_field_keysMono (w : WrapF) (hw : WrapKeysMono w)
    (st : Proc) (o : Nat) (vk : VKind) (nm : String) (acc : Accessibility)
    (multi : Bool) (extra : List (String × PyValue)) (st' : Proc)
    (h : add_field w st o vk nm acc multi extra = .ok st') :
    KeysMono st st' ∧ ∃ m', st'.getObj o = some m' ∧ nm ∈ akeys m'.mfields := by
  unfold add_field at h
  split at h
  · exact absurd h (by simp)
  · rcases bind_ok_iff.mp h with ⟨p, hp, h⟩
    rcases bind_ok_iff.mp h with ⟨st₁, h₁, h⟩
    rcases bind_ok_iff.mp h with ⟨⟨upd, st₂⟩, h₂, h⟩
    simp only at h
    have hk1 : KeysMono st st₁ := by
      split at h₁
      · cases h₁; exact keysMono_refl _
      · rcases bind_ok_iff.mp h₁ with ⟨sc, hsc, h₁⟩
        cases h₁
        exact keysMono_withScene _ _
    have hk2 : KeysMono st₁ st₂ := read_value_keysMono w hw _ _ _ _ _ _ _ h₂
    split at h
    · exact absurd h (by simp)
    · next mf hmf =>
        split at h
        · exact absurd h (by simp)
        · split at h
          · next fs hval =>
              cases h
              constructor
              · exact keysMono_trans hk1 (keysMono_trans hk2
                  (keysMono_trans (keysMono_insert _ _ _ _) (keysMono_modField _ _ _ _)))
              · obtain ⟨m₃, hm₃, hgf⟩ := getField_some_obj _ _ _ _ hmf
                obtain ⟨m', hm', hkeys⟩ := akeys_getObj_modField _ o "metanode_fields" _ m₃ hm₃
                refine ⟨m', hm', ?_⟩
                rw [hkeys]
                rw [getObj_modObj_self] at hm₃
                cases hobj₂ : st₂.getObj o with
                | none =>
                    rw [hobj₂] at hm₃
                    exact absurd hm₃ (by simp)
                | some m₂ =>
                    rw [hobj₂] at hm₃
                    simp only [Option.map_some', Option.some_inj] at hm₃
                    rw [← hm₃]
                    exact mem_akeys_aset _ _ _
          · exact absurd h (by simp)

theorem bootstrap_entry_keysMono (w : WrapF) (hw : WrapKeysMono w)
    (st : Proc) (o : Nat) (entry : String × PyValue) (st' : Proc)
    (h : bootstrap_entry w o st entry = .ok st') : KeysMono st st' := by
  obtain ⟨fn, fd⟩ := entry
  unfold bootstrap_entry at h
  simp only at h
  split at h
  · rcases bind_ok_iff.mp h with ⟨⟨vnv, d₁⟩, hv, h⟩
    simp only at h
    rcases bind_ok_iff.mp h with ⟨⟨accv, d₂⟩, ha, h⟩
    simp only at h
    rcases bind_ok_iff.mp h with ⟨acc, hacc, h⟩
    rcases bind_ok_iff.mp h with ⟨⟨mv, d₃⟩, hm, h⟩
    simp only at h
    split at h
    · exact (add_field_keysMono w hw _ _ _ _ _ _ _ _ h).1
    · cases h; exact keysMono_refl _
  · exact absurd h (by simp)

theorem bootstrap_loop_keysMono (w : WrapF) (hw : WrapKeysMono w) (o : Nat) :
    ∀ (entries : List (String × PyValue)) (st st' : Proc),
      bootstrap_loop w o st entries = .ok st' → KeysMono st st' := by
  intro entries
  induction entries with
  | nil =>
      intro st st' h
      unfold bootstrap_loop at h
      cases h
      exact keysMono_refl _
  | cons e rest ih =>
      intro st st' h
      unfold bootstrap_loop at h
      rcases bind_ok_iff.mp h with ⟨st₁, h₁, h⟩
      exact keysMono_trans (bootstrap_entry_keysMono w hw _ _ _ _ h₁) (ih _ _ h)

theorem bootstrap_entry_adds (w : WrapF) (hw : WrapKeysMono w)
    (st : Proc) (o : Nat) (fn : String) (fd : PyValue) (st' : Proc)
    (hgood : entryAddsB fd = true)
    (h : bootstrap_entry w o st (fn, fd) = .ok st') :
    ∃ m', st'.getObj o = some m' ∧ fn ∈ akeys m'.mfields := by
  cases fd with
  | pobj l =>
      unfold entryAddsB at hgood
      unfold bootstrap_entry at h
      simp only at h hgood
      rcases bind_ok_iff.mp h with ⟨⟨vnv, d₁⟩, hv, h⟩
      have hvget : aget l "validator" = some vnv := by
        unfold apop at hv
        cases hag : aget l "validator" with
        | none => rw [hag] at hv; exact absurd hv (by simp)
        | some x =>
            rw [hag] at hv
            cases hv
            rfl
      rw [hvget] at hgood
      cases vnv with
      | pstr s =>
          simp only at h hgood
          rcases bind_ok_iff.mp h with ⟨⟨accv, d₂⟩, ha, h⟩
          simp only at h
          rcases bind_ok_iff.mp h with ⟨acc, hacc, h⟩
          rcases bind_ok_iff.mp h with ⟨⟨mv, d₃⟩, hm, h⟩
          simp only at h
          split at h
          · exact (add_field_keysMono w hw _ _ _ _ _ _ _ _ h).2
          · next hnone =>
              rw [Option.isSome_iff_exists] at hgood
              obtain ⟨vk, hvk⟩ := hgood
              rw [hnone] at hvk
              exact absurd hvk (by simp)
      | pnone => exact absurd hgood (by simp)
      | pint z => exact absurd hgood (by simp)
      | pfloat q => exact absurd hgood (by simp)
      | pbool b => exact absurd hgood (by simp)
      | pmatrix xs => exact absurd hgood (by simp)
      | plist xs => exact absurd hgood (by simp)
      | pobj fs => exact absurd hgood (by simp)
      | pref oid => exact absurd hgood (by simp)
  | pnone => exact absurd hgood (by simp [entryAddsB])
  | pint z => exact absurd hgood (by simp [entryAddsB])
  | pfloat q => exact absurd hgood (by simp [entryAddsB])
  | pbool b => exact absurd hgood (by simp [entryAddsB])
  | pstr s => exact absurd hgood (by simp [entryAddsB])
  | pmatrix xs => exact absurd hgood (by simp [entryAddsB])
  | plist xs => exact absurd hgood (by simp [entryAddsB])
  | pref oid => exact absurd hgood (by simp [entryAddsB])

theorem bootstrap_loop_adds (w : WrapF) (hw : WrapKeysMono w) (o : Nat) :
    ∀ (entries : List (String × PyValue)) (i : Nat) (st st' : Proc)
      (fn : String) (fd : PyValue),
      entries.get? i = some (fn, fd) →
      entryAddsB fd = true →
      bootstrap_loop w o st entries = .ok st' →
      ∃ m', st'.getObj o = some m' ∧
        (fn ∈ akeys m'.mfields ∨ reservedNames ⊆ akeys m'.mfields) := by
  intro entries
  induction entries with
  | nil =>
      intro i st st' fn fd hget
      simp at hget
  | cons e rest ih =>
      intro i st st' fn fd hget hgood h
      unfold bootstrap_loop at h
      rcases bind_ok_iff.mp h with ⟨st₁, h₁, hrest⟩
      cases i with
      | zero =>
          simp only [List.get?] at hget
          cases hget
          obtain ⟨m₁, hm₁, hfn⟩ := bootstrap_entry_adds w hw _ _ _ _ _ hgood h₁
          obtain ⟨m', hm', hd⟩ := bootstrap_loop_keysMono w hw o rest _ _ hrest o m₁ hm₁
          refine ⟨m', hm', ?_⟩
          rcases hd with hd | hd
          · exact Or.inl (hd hfn)
          · exact Or.inr hd
      | succ i' =>
          simp only [List.get?] at hget
          exact ih i' st₁ st' fn fd hget hgood hrest

theorem read_list_keysMono (w : WrapF) (hw : WrapKeysMono w) (o : Nat) :
    ∀ (fns : List String) (st st' : Proc),
      read_list w o st fns = .ok st' → KeysMono st st' := by
  intro fns
  induction fns with
  | nil =>
      intro st st' h
      unfold read_list at h
      cases h
      exact keysMono_refl _
  | cons fn rest ih =>
      intro st st' h
      unfold read_list at h
      rcases bind_ok_iff.mp h with ⟨st₁, h₁, h⟩
      exact keysMono_trans (field_read_keysMono w hw _ _ _ _ h₁) (ih _ _ h)

theorem read_fields_keysMono (w : WrapF) (hw : WrapKeysMono w)
    (st : Proc) (o : Nat) (st' : Proc)
    (h : read_fields w st o = .ok st') : KeysMono st st' := by
  unfold read_fields at h
  split at h
  · exact absurd h (by simp)
  · exact read_list_keysMono w hw o _ _ _ h

theorem mem_reserved_mf : "metanode_fields" ∈ reservedNames := by decide

theorem mem_reserved_mt : "metanode_type" ∈ reservedNames := by decide

theorem mem_reserved_ii : "is_initialized" ∈ reservedNames := by decide

theorem add_default_fields_keysMono (w : WrapF) (hw : WrapKeysMono w)
    (st : Proc) (o : Nat) (st' : Proc)
    (h : add_default_fields w st o = .ok st') :
    KeysMono st st' ∧
    ∃ m', st'.getObj o = some m' ∧ reservedNames ⊆ akeys m'.mfields := by
  unfold add_default_fields at h
  rcases bind_ok_iff.mp h with ⟨st₁, h₁, h⟩
  rcases bind_ok_iff.mp h with ⟨⟨bv, st₂⟩, h₂, h⟩
  simp only at h
  rcases bind_ok_iff.mp h with ⟨entries, he, h⟩
  rcases bind_ok_iff.mp h with ⟨st₃, h₃, h⟩
  rcases bind_ok_iff.mp h with ⟨st₄, h₄, h⟩
  rcases bind_ok_iff.mp h with ⟨cls, hcls, h⟩
  rcases bind_ok_iff.mp h with ⟨st₅, h₅, h⟩
  obtain ⟨hk₁, m₁, hm₁, hmf₁⟩ := add_field_keysMono w hw _ _ _ _ _ _ _ _ h₁
  have hk₂ := field_get_keysMono w hw _ _ _ _ _ h₂
  have hk₃ := bootstrap_loop_keysMono w hw o entries _ _ h₃
  obtain ⟨hk₄, m₄, hm₄, hmt₄⟩ := add_field_keysMono w hw _ _ _ _ _ _ _ _ h₄
  have hk₅ := field_set_keysMono _ _ _ _ _ h₅
  obtain ⟨hk₆, m₆, hm₆, hii₆⟩ := add_field_keysMono w hw _ _ _ _ _ _ _ _ h
  refine ⟨keysMono_trans hk₁ (keysMono_trans hk₂ (keysMono_trans hk₃
    (keysMono_trans hk₄ (keysMono_trans hk₅ hk₆)))), m₆, hm₆, ?_⟩
  intro x hx
  have hx3 : x = "metanode_fields" ∨ x = "metanode_type" ∨ x = "is_initialized" := by
    simpa [reservedNames] using hx
  rcases hx3 with rfl | rfl | rfl
  · obtain ⟨m', hm', hd⟩ :=
      (keysMono_trans hk₂ (keysMono_trans hk₃
        (keysMono_trans hk₄ (keysMono_trans hk₅ hk₆)))) o m₁ hm₁
    rw [hm₆] at hm'
    cases hm'
    rcases hd with hd | hd
    · exact hd hmf₁
    · exact hd mem_reserved_mf
  · obtain ⟨m', hm', hd⟩ := (keysMono_trans hk₅ hk₆) o m₄ hm₄
    rw [hm₆] at hm'
    cases hm'
    rcases hd with hd | hd
    · exact hd hmt₄
    · exact hd mem_reserved_mt
  · exact hii₆

theorem init_meta_keysMono (w : WrapF) (hw : WrapKeysMono w)
    (st : Proc) (o : Nat) (node : String) (r : Nat) (st' : Proc)
    (h : init_meta w st o node = .ok (r, st')) : KeysMono st st' := by
  unfold init_meta at h
  rcases bind_ok_iff.mp h with ⟨u, hu, h⟩
  rcases bind_ok_iff.mp h with ⟨st₂, h₂, h⟩
  rcases bind_ok_iff.mp h with ⟨st₃, h₃, h⟩
  rcases bind_ok_iff.mp h with ⟨⟨iv, st₄⟩, h₄, h⟩
  simp only at h
  obtain ⟨hk₂, m₂, hm₂, hres₂⟩ := add_default_fields_keysMono w hw _ o _ h₂
  have hk₃ : KeysMono st₂ st₃ := by
    split at h₃
    · cases h₃; exact keysMono_refl _
    · rcases bind_ok_iff.mp h₃ with ⟨st₂', h₂', h₃⟩
      cases h₃
      exact keysMono_trans (read_fields_keysMono w hw _ _ _ h₂')
        (keysMono_instances _ _)
  have hk₄ := field_get_keysMono w hw _ _ _ _ _ h₄
  have hend : KeysMono st₄ st' := by
    split at h
    · cases h; exact keysMono_refl _
    · rcases bind_ok_iff.mp h with ⟨st₅, h₅, h⟩
      cases h
      exact keysMono_trans (keysMono_initLog _ _) (field_set_keysMono _ _ _ _ _ h₅)
  have hc : KeysMono st₂ st' := keysMono_trans hk₃ (keysMono_trans hk₄ hend)
  intro o' m hm
  by_cases ho : o' = o
  · subst ho
    obtain ⟨m', hm', hd⟩ := hc o' m₂ hm₂
    refine ⟨m', hm', Or.inr ?_⟩
    rcases hd with hd | hd
    · exact fun x hx => hd (hres₂ hx)
    · exact hd
  · have hm₁ : (st.modObj o (fun m' => { m' with nodeUuid := u, mfields := [] })).getObj o' =
        some m := by
      rw [getObj_modObj_ne _ _ _ _ ho]
      exact hm
    exact (keysMono_trans hk₂ hc) o' m hm₁

theorem wrap_step_keysMono (w : WrapF) (hw : WrapKeysMono w) :
    WrapKeysMono (wrap_step w) := by
  intro st node r st' h
  unfold wrap_step at h
  split at h
  · rcases bind_ok_iff.mp h with ⟨u, hu, h⟩
    split at h
    · exact init_meta_keysMono w hw _ _ _ _ _ h
    · rcases bind_ok_iff.mp h with ⟨stored, hst, h⟩
      split at h
      · split at h
        · exact keysMono_trans (keysMono_append _ _) (init_meta_keysMono w hw _ _ _ _ _ h)
        · exact absurd h (by simp)
      · exact absurd h (by simp)
  · exact absurd h (by simp)

theorem wrap_keysMono : ∀ f, WrapKeysMono (wrap f) := by
  intro f
  induction f with
  | zero =>
      intro st node r st' h
      exact absurd h (by simp [wrap])
  | succ f ih =>
      intro st node r st' h
      unfold wrap at h
      exact wrap_step_keysMono (wrap f) ih st node r st' h

theorem bootstrap_loop_append (w : WrapF) (o : Nat) :
    ∀ (xs ys : List (String × PyValue)) (st : Proc),
      bootstrap_loop w o st (xs ++ ys) =
        bootstrap_loop w o st xs >>= fun s => bootstrap_loop w o s ys := by
  intro xs
  induction xs with
  | nil => intro ys st; rfl
  | cons e rest ih =>
      intro ys st
      simp only [List.cons_append, bootstrap_loop]
      cases hE : bootstrap_entry w o st e with
      | error err => simp [hE, Bind.bind, Except.bind]
      | ok s => simp [hE, Bind.bind, Except.bind, ih]

end KeysMonoLemmas

set_option maxRecDepth 1000000

section ClaimTheorems

/-- C1 counterexample: with no intervening flush nothing reaches the store —
`add_field` merges the descriptor only into the in-memory blob and
`metanode_type.set` is write-back too, so after clearing the identity cache
a re-wrap of the same entity raises the kind-resolution `Exception` (the
stored tag reads back `None`); in particular no `count` field is exposed.
This refutes the claim's "no intervening flush required". -/
theorem c1_counterexample_no_flush :
    c1_no_flush_pipeline = .error .exception := by rfl

/-- C1 (amended): schema self-description holds after a flush: for every
validator kind and accessibility, and every legal multiplicity, after
`add_field(validator, "count", accessibility, multiplicity)`, `set` of a
representative value and `write_fields()`, clearing the identity cache and
wrapping the same entity again exposes a field named `count` with the same
validator kind, multiplicity and accessibility, with no re-declaration by
the caller. -/
theorem c1_schema_round_trip_after_flush :
    ∀ (vk : VKind) (acc : Accessibility) (multi : Bool),
      (multi && acc == Accessibility.pub) = false →
      c1_reload_check vk acc multi = true := by
  decide

/-- Witness for C1 (amended) at the spec's own concrete scenario: a private
single integer field named `count`. -/
theorem c1_witness : c1_reload_check .intV .priv false = true :=
  c1_schema_round_trip_after_flush .intV .priv false rfl

/-- C2 counterexample: the identity-cache hit in `__new__` still re-runs
`__init__` on the cached instance, which re-reads the store; after an
external actor corrupts the persisted schema blob, the second `wrap` of the
same live entity raises `ValueError` from `json.loads` instead of returning
the instance — refuting "returns the same instance ... even if the
underlying store was mutated externally between the two calls" for
arbitrary mutations. -/
theorem c2_counterexample_corrupted_blob :
    c2_corrupt_pipeline = .error .valueError := by rfl

/-- C2 (amended): whenever the second wrap completes at all, identity holds:
a wrap of a node whose UUID is already in the identity cache returns exactly
the cached instance (reference equality of the heap index), for every state
the store mutation produced. -/
theorem c2_wrap_returns_cached_instance (f : Nat) (st : Proc) (node u : String)
    (c o : Nat) (st' : Proc)
    (hu : getUuidOf st.scene node = .ok u)
    (hc : aget st.instances u = some c)
    (hw : wrap f st node = .ok (o, st')) :
    o = c :=
  wrap_ret_of_cached f st node u c o st' hu hc hw

/-- Witness for C2 (amended): after a flush and a benign external mutation
of a custom field's stored value, the second wrap completes and returns the
cached instance 0. -/
theorem c2_witness : c2_second.1 = 0 :=
  c2_wrap_returns_cached_instance 10 c2_mut_state baseNode "uuid1" 0
    c2_second.1 c2_second.2 (by rfl) (by rfl) (by rfl)

/-- C3 counterexample: `MultiField.write` has no try/except around the
encode step — the `ValueError` that `int("abc")` raises propagates out of
`write()` (after the store slots were already cleared) instead of being
downgraded to a log entry, refuting the claim for private multi fields. -/
theorem c3_counterexample_multi_write_raises :
    c3_multi_pipeline = .error .valueError := by rfl

/-- C3 (amended): for single fields — private and public alike — an encode
failure in `write()` is caught and downgraded to a log entry: the call
returns normally and the entire process state, in particular the slot's
previously persisted value, is exactly unchanged. -/
theorem c3_single_write_soft_fails_on_encode_error (st : Proc) (o : Nat)
    (fn : String) (f : FieldObj) (e : PyErr)
    (hf : getField st o fn = some f) (hm : f.multi = false)
    (he : to_attribute st f.validator f.value = .error e) :
    field_write st o fn = .ok st := by
  unfold field_write
  simp only [hf]
  rw [hm, if_neg Bool.false_ne_true, he]

/-- Witness for C3 (amended): soft-fail on a concrete private integer field
holding the non-numeric string "abc". -/
theorem c3_witness : field_write c3_single_state 0 "cnt" = .ok c3_single_state :=
  c3_single_write_soft_fails_on_encode_error c3_single_state 0 "cnt"
    ⟨.intV, .priv, false, "cnt", .pstr "abc", []⟩ .valueError (by rfl) rfl (by rfl)

/-- C4: the code contradicts the claim and its own docstring — after
`set(5)` on an unconnected public integer field the slot stores 5
(write-through), but `get()` returns `None`, because `PublicField.get`
returns `self.read()` and `Field.read` returns `None` on every path. -/
theorem c4_public_get_returns_none :
    c4_public_pipeline = .ok (.pnone, some (.pint 5)) := by rfl

/-- C5: the code contradicts `initialize`'s docstring ("only called the
first time the node is instanciated"): wrapping the same node twice in one
process with no flush in between re-runs `initialize()`, because
`is_initialized.set(True)` is write-back and the guard re-reads the
still-false stored flag; the identity cache still returns the same instance
(both wraps yield heap index 0). -/
theorem c5_initialize_runs_twice :
    c5_double_wrap_pipeline = .ok (0, 0, ["uuid1", "uuid1"]) := by rfl

/-- C6: write-back buffering for private single fields: `set(v)` only
replaces the in-memory cachedValue — the scene (hence the backing slot's
stored value), the identity cache, the init trace and every other field are
untouched — and `get()` before any flush returns `v`. -/
theorem c6_private_set_is_write_back (w : WrapF) (st : Proc) (o : Nat)
    (fn : String) (f : FieldObj) (v : PyValue)
    (hf : getField st o fn = some f) (hacc : f.acc = .priv) (hm : f.multi = false) :
    ∃ st', field_set st o fn v = .ok st' ∧
      st'.scene = st.scene ∧
      st'.instances = st.instances ∧
      st'.initLog = st.initLog ∧
      getField st' o fn = some { f with value := v } ∧
      (∀ fn', fn' ≠ fn → getField st' o fn' = getField st o fn') ∧
      field_get w st' o fn = .ok (v, st') := by
  refine ⟨st.modField o fn (fun g => { g with value := v }), ?_, ?_, ?_, ?_, ?_, ?_, ?_⟩
  · unfold field_set
    simp only [hf]
    rw [hm, if_neg Bool.false_ne_true, hacc]
  · exact modField_scene _ _ _ _
  · exact modField_instances _ _ _ _
  · exact modField_initLog _ _ _ _
  · rw [getField_modField_self, hf]
    rfl
  · intro fn' hne
    exact getField_modField_ne _ _ _ _ _ hne
  · unfold field_get
    rw [getField_modField_self, hf]
    dsimp only [Option.map_some']
    rw [hm, if_neg Bool.false_ne_true, hacc]

/-- Witness for C6: a concrete private integer field set to 10. -/
theorem c6_witness :
    ∃ st', field_set c6_state 0 "cnt" (.pint 10) = .ok st' ∧
      st'.scene = c6_state.scene ∧
      st'.instances = c6_state.instances ∧
      st'.initLog = c6_state.initLog ∧
      getField st' 0 "cnt" =
        some { (⟨.intV, .priv, false, "cnt", .pint 0, []⟩ : FieldObj) with value := .pint 10 } ∧
      (∀ fn', fn' ≠ "cnt" → getField st' 0 fn' = getField c6_state 0 fn') ∧
      field_get (wrap 10) st' 0 "cnt" = .ok (.pint 10, st') :=
  c6_private_set_is_write_back (wrap 10) c6_state 0 "cnt"
    ⟨.intV, .priv, false, "cnt", .pint 0, []⟩ (.pint 10) (by rfl) rfl rfl

/-- C10: duck-typed attribute lookup on a MetaNode never raises: for any
name that is neither an instance nor a class attribute, access yields the
declared field of that name, and yields None — not an AttributeError — when
no field of that name is declared. -/
theorem c10_undeclared_attribute_access_never_raises (m : MetaObj) (n : String)
    (h1 : n ∉ instance_attr_names) (h2 : n ∉ class_attr_names) :
    (aget m.mfields n = none → py_getattr m n = .ok .noneVal) ∧
    (∀ fobj, aget m.mfields n = some fobj → py_getattr m n = .ok (.fieldAttr fobj)) := by
  constructor
  · intro h
    unfold py_getattr
    rw [if_neg (not_or.mpr ⟨h1, h2⟩), h]
  · intro fobj h
    unfold py_getattr
    rw [if_neg (not_or.mpr ⟨h1, h2⟩), h]

/-- Witness for C10 at a concrete object: an undeclared name yields None, a
declared one yields its Field. -/
theorem c10_witness :
    py_getattr c10_obj "other" = .ok .noneVal ∧
    py_getattr c10_obj "my_field" =
      .ok (.fieldAttr ⟨.intV, .priv, false, "my_field", .pint 0, []⟩) :=
  ⟨(c10_undeclared_attribute_access_never_raises c10_obj "other"
      (by decide) (by decide)).1 (by rfl),
   (c10_undeclared_attribute_access_never_raises c10_obj "my_field"
      (by decide) (by decide)).2 _ (by rfl)⟩

/-- C7 counterexample: `MultiField.write` performs no connection check at
all — on a connected multi slot it still clears every element and rewrites
the in-memory sequence, changing the stored value (element 0 goes from 1 to
99), refuting the claim for private multi fields. -/
theorem c7_counterexample_multi_ignores_connection :
    c7_multi_pipeline = .ok (.pint 1, .pint 99) := by rfl

/-- C7 (amended): for private and public single fields whose slot has an
incoming connection, `write()` returns without raising and leaves the
slot's stored value (and elements and connection state) unchanged — only
lock state may toggle. -/
theorem c7_connected_single_write_skips (st : Proc) (o : Nat) (fn p : String)
    (f : FieldObj) (vv : Option PyValue) (el : List PyValue)
    (hf : getField st o fn = some f) (hm : f.multi = false)
    (hp : pathOf st o = .ok p)
    (hs : slotData st.scene p fn = some (vv, el, true)) :
    ∃ st', field_write st o fn = .ok st' ∧
      slotData st'.scene p fn = some (vv, el, true) := by
  unfold field_write
  simp only [hf]
  rw [hm, if_neg Bool.false_ne_true]
  cases hta : to_attribute st f.validator f.value with
  | error e => exact ⟨st, rfl, hs⟩
  | ok ev =>
      cases hacc : f.acc with
      | pub =>
          refine ⟨st.withScene st.scene, ?_, hs⟩
          simp only [hp, ok_bind, hacc,
            connectedSrc_of_slotData st.scene p fn vv el true hs, if_pos rfl, if_true]
      | priv =>
          obtain ⟨sc₁, hsl₁⟩ := setLockA_ok st.scene p fn false (vv, el, true) hs
          have hpres₁ := slotData_setLockA st.scene p fn false sc₁ hsl₁
          have hs₁ : slotData sc₁ p fn = some (vv, el, true) := by
            rw [hpres₁]; exact hs
          obtain ⟨sc₂, hsl₂⟩ := setLockA_ok sc₁ p fn true (vv, el, true) hs₁
          have hpres₂ := slotData_setLockA sc₁ p fn true sc₂ hsl₂
          refine ⟨st.withScene sc₂, ?_, ?_⟩
          · simp only [hp, ok_bind, hacc, hsl₁,
              connectedSrc_of_slotData sc₁ p fn vv el true hs₁, if_pos rfl, if_true, hsl₂]
          · show slotData sc₂ p fn = some (vv, el, true)
            rw [hpres₂]
            exact hs₁

/-- Witness for C7 (amended): concrete connected private integer slot
storing 3 while the in-memory value is 99; `write()` succeeds and the store
keeps 3. -/
theorem c7_witness :
    ∃ st', field_write c7_single_state 0 "cnt" = .ok st' ∧
      slotData st'.scene "node1" "cnt" = some (some (.pint 3), [], true) :=
  c7_connected_single_write_skips c7_single_state 0 "cnt" "node1"
    ⟨.intV, .priv, false, "cnt", .pint 99, []⟩ (some (.pint 3)) []
    (by rfl) rfl (by rfl) (by rfl)

/-- C9: validator round-trips.  For every domain value of the 4x4-matrix
kind and of the enumeration kind, `decode(encode(v)) = v`; and the
entity-reference kind encodes a MetaNode to its durable UUID and decodes
that UUID back to the very same instance whenever the backing entity is
alive and the instance is in the identity cache. -/
theorem c9_validator_round_trips :
    (∀ (st : Proc) (w : WrapF) (xs : List Rat),
        to_attribute st .matrixV (.pmatrix xs) = .ok (.pmatrix xs) ∧
        from_attributeW w st .matrixV (.pmatrix xs) = .ok (.pmatrix xs, st)) ∧
    (∀ (st : Proc) (w : WrapF) (z : Int),
        to_attribute st .enumV (.pint z) = .ok (.pint z) ∧
        from_attributeW w st .enumV (.pint z) = .ok (.pint z, st)) ∧
    (∀ (st : Proc) (w : WrapF),
        (∀ z : Int, to_attribute st .intV (.pint z) = .ok (.pint z) ∧
          from_attributeW w st .intV (.pint z) = .ok (.pint z, st)) ∧
        (∀ q : Rat, to_attribute st .floatV (.pfloat q) = .ok (.pfloat q) ∧
          from_attributeW w st .floatV (.pfloat q) = .ok (.pfloat q, st)) ∧
        (∀ b : Bool, to_attribute st .boolV (.pbool b) = .ok (.pbool b) ∧
          from_attributeW w st .boolV (.pbool b) = .ok (.pbool b, st)) ∧
        (∀ str : String, to_attribute st .strV (.pstr str) = .ok (.pstr str) ∧
          from_attributeW w st .strV (.pstr str) = .ok (.pstr str, st)) ∧
        (to_attribute st .jsonV json_representative >>= fun r =>
            from_attributeW w st .jsonV r) = .ok (json_representative, st)) ∧
    (∀ (f : Nat) (st : Proc) (c : Nat) (m : MetaObj) (e : Entity)
        (v : PyValue) (st' : Proc),
        st.getObj c = some m →
        m.nodeUuid ≠ "" →
        st.scene.findUuid m.nodeUuid = some e →
        st.scene.find e.ename = some e →
        aget st.instances m.nodeUuid = some c →
        to_attribute st .metanodeV (.pref c) = .ok (.pstr m.nodeUuid) ∧
        (from_attributeW (wrap f) st .metanodeV (.pstr m.nodeUuid) = .ok (v, st') →
          v = .pref c)) := by
  refine ⟨fun st w xs => ⟨rfl, rfl⟩, fun st w z => ⟨rfl, rfl⟩,
    fun st w => ⟨fun z => ⟨rfl, rfl⟩, fun q => ⟨rfl, rfl⟩, fun b => ⟨by rfl, rfl⟩,
      fun str => ⟨by rfl, rfl⟩, by rfl⟩, ?_⟩
  intro f st c m e v st' hm hne hfu hfn hc
  have htr : pyTruthy (.pstr m.nodeUuid) = true := by
    simpa [pyTruthy] using bne_iff_ne.mpr hne
  constructor
  · unfold to_attribute objUuid
    simp only [pyTruthy, if_pos rfl, hm, ok_bind]
    rfl
  · intro hdec
    simp only [from_attributeW] at hdec
    rw [if_pos htr] at hdec
    simp only [hfu] at hdec
    rcases bind_ok_iff.mp hdec with ⟨⟨oo, st₂⟩, hw, hfin⟩
    simp only at hfin
    cases hfin
    have hu : getUuidOf st.scene e.ename = .ok m.nodeUuid := by
      unfold getUuidOf
      simp only [hfn]
      have := List.find?_some hfu
      have heq : e.euuid = m.nodeUuid := of_decide_eq_true this
      rw [heq]
    rw [wrap_ret_of_cached f st e.ename m.nodeUuid c oo _ hu hc hw]

/-- Witness for C9 at concrete inputs: a matrix, an enum index, and the
wrapped node of `c9_state` referenced by UUID. -/
theorem c9_witness :
    (to_attribute c9_state .matrixV
        (.pmatrix [1, 0, 0, 0, 0, 1, 0, 0, 0, 0, 1, 0, 1, 2, 3, 1]) =
        .ok (.pmatrix [1, 0, 0, 0, 0, 1, 0, 0, 0, 0, 1, 0, 1, 2, 3, 1]) ∧
      from_attributeW (wrap 10) c9_state .matrixV
        (.pmatrix [1, 0, 0, 0, 0, 1, 0, 0, 0, 0, 1, 0, 1, 2, 3, 1]) =
        .ok (.pmatrix [1, 0, 0, 0, 0, 1, 0, 0, 0, 0, 1, 0, 1, 2, 3, 1], c9_state)) ∧
    (to_attribute c9_state .enumV (.pint 2) = .ok (.pint 2) ∧
      from_attributeW (wrap 10) c9_state .enumV (.pint 2) = .ok (.pint 2, c9_state)) ∧
    (to_attribute c9_state .intV (.pint 7) = .ok (.pint 7) ∧
      from_attributeW (wrap 10) c9_state .intV (.pint 7) = .ok (.pint 7, c9_state)) ∧
    ((to_attribute c9_state .jsonV json_representative >>= fun r =>
        from_attributeW (wrap 10) c9_state .jsonV r) =
      .ok (json_representative, c9_state)) ∧
    (to_attribute c9_state .metanodeV (.pref 0) = .ok (.pstr c9_obj.nodeUuid) ∧
      c9_dec.1 = .pref 0) :=
  ⟨c9_validator_round_trips.1 c9_state (wrap 10) _,
   c9_validator_round_trips.2.1 c9_state (wrap 10) 2,
   (c9_validator_round_trips.2.2.1 c9_state (wrap 10)).1 7,
   (c9_validator_round_trips.2.2.1 c9_state (wrap 10)).2.2.2.2,
   (c9_validator_round_trips.2.2.2 10 c9_state 0 c9_obj c9_entity c9_dec.1 c9_dec.2
      (by rfl) (by decide) (by rfl) (by rfl) (by rfl)).1,
   (c9_validator_round_trips.2.2.2 10 c9_state 0 c9_obj c9_entity c9_dec.1 c9_dec.2
      (by rfl) (by decide) (by rfl) (by rfl) (by rfl)).2 (by rfl)⟩

/-- C8 counterexample: in the Python 2 runtime the claim's reserved-before-
custom order fails.  `add_default_fields` declares `metanode_type` and
`is_initialized` only AFTER the re-declaration loop, and the loop iterates
the loaded blob dict in CPython 2.7 hash order, whose first entry for the
persisted blob is the custom `count` descriptor.  Concretely: the first
entry the loop processes from the mid-bootstrap state is the custom field
`count`, at a moment when the object's field map holds `metanode_fields`
only — `metanode_type` and `is_initialized` are absent — and the loop (and
with it the bootstrap) still completes, so this moment occurs in every
successful re-wrap. -/
theorem c8_counterexample_hash_order :
    c8_hash_blob.head? = some ("count", c8_entry "IntValidator") ∧
    "count" ∉ reservedNames ∧
    c8_hash_state.getObj 0 = some c8_hash_obj0 ∧
    akeys c8_hash_obj0.mfields = ["metanode_fields"] ∧
    "metanode_type" ∉ akeys c8_hash_obj0.mfields ∧
    "is_initialized" ∉ akeys c8_hash_obj0.mfields ∧
    bootstrap_loop (wrap 6) 0 c8_hash_state c8_hash_blob = .ok c8_hash_fin :=
  ⟨rfl, by decide, rfl, rfl, by decide, by decide, by rfl⟩

/-- C8, amended.  First part: the schema-blob field `metanode_fields` does
exist before any custom field — it is declared unconditionally before the
re-declaration loop, and as the loop runs an object's key set only grows
(or already holds every reserved name), so at the moment any loop entry is
processed the blob field is present; this holds for every iteration order.
Second part: after a completed `add_default_fields` — hence at every
`add_field` call a subclass (after its `super()` call) or client performs
afterwards — all three reserved fields are present in the field map.  The
original claim's stronger ordering for `metanode_type` and `is_initialized`
is refuted by the counterexample: both are declared only after the loop,
and Python 2's hash-ordered iteration puts the custom entry first. -/
theorem c8_blob_field_before_custom (f : Nat) :
    (∀ (st stFin : Proc) (o : Nat) (m : MetaObj)
        (pre post : List (String × PyValue)) (nm : String) (d : PyValue),
        st.getObj o = some m →
        "metanode_fields" ∈ akeys m.mfields →
        bootstrap_loop (wrap f) o st (pre ++ (nm, d) :: post) = .ok stFin →
        ∃ stMid m', bootstrap_loop (wrap f) o st pre = .ok stMid ∧
          stMid.getObj o = some m' ∧ "metanode_fields" ∈ akeys m'.mfields) ∧
    (∀ (st st' : Proc) (o : Nat),
        add_default_fields (wrap f) st o = .ok st' →
        ∃ m', st'.getObj o = some m' ∧ reservedNames ⊆ akeys m'.mfields) := by
  constructor
  · intro st stFin o m pre post nm d hm hmf hrun
    rw [bootstrap_loop_append] at hrun
    rcases bind_ok_iff.mp hrun with ⟨stMid, hpre, _⟩
    obtain ⟨m', hm', hd⟩ :=
      bootstrap_loop_keysMono (wrap f) (wrap_keysMono f) o pre st stMid hpre o m hm
    refine ⟨stMid, m', hpre, hm', ?_⟩
    rcases hd with hd | hd
    · exact hd hmf
    · exact hd mem_reserved_mf
  · intro st st' o h
    exact (add_default_fields_keysMono (wrap f) (wrap_keysMono f) st o st' h).2

/-- Witness for the amended C8 at a concrete flushed entity: splitting the
blob before its custom `count` descriptor, the schema-blob field is present
at the moment `count` is re-declared, and a completed fresh bootstrap ends
with all three reserved fields present. -/
theorem c8_witness :
    (∃ stMid m', bootstrap_loop (wrap 6) 0 c8_state c8_pre = .ok stMid ∧
        stMid.getObj 0 = some m' ∧ "metanode_fields" ∈ akeys m'.mfields) ∧
    (∃ m', c8_adf_fin.getObj 0 = some m' ∧ reservedNames ⊆ akeys m'.mfields) :=
  ⟨(c8_blob_field_before_custom 6).1 c8_state c8_fin 0 c8_obj0 c8_pre []
      "count" (c8_entry "IntValidator") (by rfl) (by decide) (by rfl),
   (c8_blob_field_before_custom 6).2 c8_init_state c8_adf_fin 0 (by rfl)⟩

end ClaimTheorems

end HCM
